import Mathlib

/-!
Shallow embedding of `scrape.py` (AceStream M3U scraper), covering the
channel reconciliation and enrichment pipeline: identifier extraction,
country-code handling, per-channel enrichment, the history store
(playlist load / missing-channel resurrection), deduplication and
playlist serialization.

Strings are modelled as `List Char` (`Str`); Python `str` methods used by
the program (`strip`, `replace`, `split`, `startswith`, `in`) and the
four regular expressions are modelled by explicit recursive functions.
Time is modelled in integer microseconds (the resolution of Python's
`datetime`/`timedelta`); `Channel.last_not_found` is an integer number
of seconds, exactly as stored in the `x-last-found` playlist attribute.
-/

abbrev Str := List Char

/-- Python `str.strip()` whitespace class (ASCII part). -/
def isPySpace (c : Char) : Bool :=
  c == ' ' || c == '\t' || c == '\n' || c == '\r' || c == '\x0b' || c == '\x0c'

/-- Python `\w` word-character class (ASCII part), used by the country-code regexes. -/
def pyIsWordChar (c : Char) : Bool :=
  c.isAlphanum || c == '_'

def pyStripLeft (s : Str) : Str := s.dropWhile isPySpace

def pyStripRight (s : Str) : Str := (s.reverse.dropWhile isPySpace).reverse

/-- Python `str.strip()` with no arguments. -/
def pyStrip (s : Str) : Str := pyStripRight (pyStripLeft s)

/-- Python `str.startswith` on the `List Char` model: first argument is the pattern. -/
def strStartsWith : Str → Str → Bool
  | [], _ => true
  | _ :: _, [] => false
  | p :: ps, c :: cs => p == c && strStartsWith ps cs

/-- Python `pat in s` (substring test). -/
def containsSub (pat : Str) : Str → Bool
  | [] => strStartsWith pat []
  | c :: rest => strStartsWith pat (c :: rest) || containsSub pat rest

/-- Python `s.endswith(pat)`, used to state well-formedness side conditions. -/
def strEndsWith (pat s : Str) : Bool := strStartsWith pat.reverse s.reverse

/-- Fuel-driven worker for `str.replace` with a non-empty pattern: scans left to
right and replaces non-overlapping occurrences. Fuel bounds the number of
consumed characters, so `s.length` fuel is always enough. -/
def pyReplaceFuel (pat rep : Str) : Nat → Str → Str
  | 0, s => s
  | _ + 1, [] => []
  | fuel + 1, c :: rest =>
    if strStartsWith pat (c :: rest) then
      rep ++ pyReplaceFuel pat rep fuel ((c :: rest).drop pat.length)
    else
      c :: pyReplaceFuel pat rep fuel rest

/-- Python `s.replace(pat, rep)` (all occurrences). An empty pattern inserts
`rep` at every gap, matching CPython semantics. -/
def pyReplace (pat rep s : Str) : Str :=
  match pat with
  | [] => rep ++ (s.map (fun c => c :: rep)).flatten
  | _ :: _ => pyReplaceFuel pat rep s.length s

/-- Python `s.split(",")[-1]`: the suffix after the last comma (the whole
string when there is no comma). -/
def lastFieldAfterComma (s : Str) : Str :=
  (s.reverse.takeWhile (fun c => c != ',')).reverse

/-- Python text-file line iteration: split after each newline, every line
keeping its trailing newline (the final line may lack one). -/
def pySplitLines : Str → List Str
  | [] => []
  | c :: rest =>
    if c = '\n' then ['\n'] :: pySplitLines rest
    else
      match pySplitLines rest with
      | [] => [[c]]
      | l :: ls => (c :: l) :: ls

def pyToLower (c : Char) : Char := c.toLower

def pyToUpper (c : Char) : Char := c.toUpper

def pyLowerStr (s : Str) : Str := s.map pyToLower

/-- Decimal digit character for a digit value 0-9. -/
def digitChar : Nat → Char
  | 0 => '0' | 1 => '1' | 2 => '2' | 3 => '3' | 4 => '4'
  | 5 => '5' | 6 => '6' | 7 => '7' | 8 => '8' | 9 => '9'
  | _ => '*'

/-- Fuel-driven decimal printing worker; fuel `n + 1` is always enough for `n`. -/
def natDigitsAux : Nat → Nat → Str
  | 0, _ => []
  | fuel + 1, n =>
    if n < 10 then [digitChar n]
    else natDigitsAux fuel (n / 10) ++ [digitChar (n % 10)]

/-- Decimal representation of a natural number, as produced by Python `str`. -/
def natDigits (n : Nat) : Str := natDigitsAux (n + 1) n

/-- Python `str(i)` for an `int`. -/
def intToStr (i : Int) : Str :=
  if i < 0 then '-' :: natDigits i.natAbs else natDigits i.toNat

/-- Python `int(s)` restricted to strings of decimal digits (the only use in
the program is on a `\d+` regex group). -/
def parseNat (s : Str) : Nat := s.foldl (fun a c => a * 10 + (c.toNat - 48)) 0

/-- Model of `re.search` for the patterns `LIT([^"]+)"` (with `p c = (c != '"')`)
and `LIT(\d+)"` (with `p = Char.isDigit`), where `LIT` is a literal ending in a
double quote: scan left to right for an occurrence of `lit`; at each occurrence
take the maximal run of `p`-characters after it and require the run non-empty
and followed by a closing double quote, otherwise keep scanning. -/
def searchAttrP (lit : Str) (p : Char → Bool) : Str → Option Str
  | [] => none
  | c :: rest =>
    if strStartsWith lit (c :: rest) then
      let after := (c :: rest).drop lit.length
      let content := after.takeWhile p
      if content ≠ [] ∧ (after.drop content.length).head? = some '"' then some content
      else searchAttrP lit p rest
    else searchAttrP lit p rest

-- region literals of the three metadata-line regexes (scrape.py lines 26-28)

def LIT_TVG_LOGO : Str := "tvg-logo=\"".toList
def LIT_TVG_ID : Str := "tvg-id=\"".toList
def LIT_LAST_FOUND : Str := "x-last-found=\"".toList

/-- TVG_LOGO_REGEX search: group 1 of `tvg-logo="([^"]+)"`, or `""` on no match. -/
def search_tvg_logo (s : Str) : Str :=
  (searchAttrP LIT_TVG_LOGO (fun c => c != '"') s).getD []

/-- TVG_ID_REGEX search: group 1 of `tvg-id="([^"]+)"`, or `""` on no match. -/
def search_tvg_id (s : Str) : Str :=
  (searchAttrP LIT_TVG_ID (fun c => c != '"') s).getD []

/-- LAST_FOUND_REGEX search plus `int(...)`: `int(group 1)` of
`x-last-found="(\d+)"`, or `0` on no match (scrape.py lines 123, 132). -/
def search_last_found (s : Str) : Int :=
  match searchAttrP LIT_LAST_FOUND Char.isDigit s with
  | some d => (parseNat d : Int)
  | none => 0

/-- FIND_COUNTRY_CODE_REGEX (`\s*\[\w{2}\]\s*$`) has a match in `s` iff after
stripping trailing whitespace the string ends in `[ww]` with two word
characters (scrape.py line 21). -/
def find_country_code (s : Str) : Bool :=
  match (pyStripRight s).reverse with
  | ']' :: w2 :: w1 :: '[' :: _ => pyIsWordChar w1 && pyIsWordChar w2
  | _ => false

/-- TVG_ID_COUNTRY_CODE_REGEX_1 (`\.(\w{2})\s*$`): the group of the unique
possible match, i.e. the two word characters following a dot at the
whitespace-stripped end of the string (scrape.py line 23). -/
def regex1_cc (s : Str) : Option (Char × Char) :=
  match (pyStripRight s).reverse with
  | w2 :: w1 :: '.' :: _ =>
    if pyIsWordChar w1 && pyIsWordChar w2 then some (w1, w2) else none
  | _ => none

/-- TVG_ID_COUNTRY_CODE_REGEX_2 (`^(\w{2})[ :]`): two leading word characters
followed by a space or colon (scrape.py line 24). -/
def regex2_cc (s : Str) : Option (Char × Char) :=
  match s with
  | w1 :: w2 :: c :: _ =>
    if pyIsWordChar w1 && pyIsWordChar w2 && (c == ' ' || c == ':') then some (w1, w2)
    else none
  | _ => none

-- region data model (scrape.py lines 74-84)

structure Channel where
  name : Str
  tvg_logo : Str
  last_not_found : Int
  tvg_id : Str := []
  infohash : Str := []
  content_id : Str := []
  category : Str := []
deriving DecidableEq, Repr

-- region constants (scrape.py lines 30-70)

def ACE_URL_PREFIXES_CONTENT_ID : List Str :=
  [ "acestream://".toList,
    "http://127.0.0.1:6878/ace/getstream?id=".toList,
    "http://127.0.0.1:6878/ace/getstream?content_id=".toList,
    "http://127.0.0.1:6878/ace/manifest.m3u8?id=".toList,
    "http://127.0.0.1:6878/ace/manifest.m3u8?content_id=".toList,
    "plugin://script.module.horus?action=play&id=".toList ]

def ACE_URL_PREFIXES_INFOHASH : List Str :=
  [ "http://127.0.0.1:6878/ace/getstream?infohash=".toList,
    "http://127.0.0.1:6878/ace/manifest.m3u8?infohash=".toList ]

/-- M3U_URI_SCHEMES as an ordered association list (scheme name, URL prefix). -/
def M3U_URI_SCHEMES : List (Str × Str) :=
  [ ("local_infohash".toList, "http://127.0.0.1:6878/ace/manifest.m3u8?infohash=".toList),
    ("local_content_id".toList, "http://127.0.0.1:6878/ace/manifest.m3u8?content_id=".toList),
    ("ace".toList, "acestream://".toList),
    ("horus".toList, "plugin://script.module.horus?action=play&id=".toList) ]

def SPORT_WORDS : List Str :=
  [ "football".toList, "soccer".toList, "basketball".toList, "nba".toList,
    "sport".toList, "tennis".toList, "espn".toList, "moto".toList,
    "formula 1".toList, "f1".toList, "hockey".toList, "cricket".toList,
    "rugby".toList, "golf".toList, "fórmula 1".toList ]

/-- STALE_CHANNEL_TIME_THRESHOLD = timedelta(days=3), in microseconds. -/
def STALE_THRESHOLD_US : Int := 259200000000

-- region URL handling (scrape.py lines 334-347)

/-- Shared loop body of the two identifier extractors: first prefix in list
order that matches wins; its remainder is stripped; no match yields `""`. -/
def extractIdAux (prefixes : List Str) (url : Str) : Str :=
  match prefixes with
  | [] => []
  | p :: ps =>
    if strStartsWith p url then pyStrip (url.drop p.length)
    else extractIdAux ps url

def extract_infohash_from_url (url : Str) : Str :=
  extractIdAux ACE_URL_PREFIXES_INFOHASH url

def extract_content_id_from_url (url : Str) : Str :=
  extractIdAux ACE_URL_PREFIXES_CONTENT_ID url

-- region TVG handling (scrape.py lines 269-307)

def get_country_code_from_tvg_id (tvg_id : Str) : Str :=
  match regex1_cc tvg_id with
  | some (w1, w2) => ['[', pyToUpper w1, pyToUpper w2, ']']
  | none =>
    match regex2_cc tvg_id with
    | some (w1, w2) => ['[', pyToUpper w1, pyToUpper w2, ']']
    | none => "[?]".toList

/-- get_tvg_id_from_title: on a match of FIND_COUNTRY_CODE_REGEX the group-0
text stripped of brackets and whitespace is the two-letter code; all
occurrences of `[code]` are removed from the title and `.{code.lower()}` is
appended (scrape.py lines 282-299). -/
def get_tvg_id_from_title (title : Str) : Str :=
  match (pyStripRight title).reverse with
  | ']' :: w2 :: w1 :: '[' :: _ =>
    if pyIsWordChar w1 && pyIsWordChar w2 then
      let code : Str := [w1, w2]
      let title_no_cc := pyStrip (pyReplace ('[' :: code ++ [']']) [] title)
      title_no_cc ++ '.' :: pyLowerStr code
    else []
  | _ => []

def is_sport_channel (channel_name : Str) : Bool :=
  SPORT_WORDS.any (fun w => containsSub (pyLowerStr w) (pyLowerStr channel_name))

-- region names (scrape.py lines 221-233)

def do_name_replace (name : Str) (replacements : List (Str × Str)) : Str :=
  let name := pyStrip name
  let new_name :=
    replacements.foldl
      (fun acc pr => if containsSub pr.1 acc then pyReplace pr.1 pr.2 acc else acc) name
  pyStrip new_name

-- region PreviousChannelProcessor (scrape.py lines 100-168)

/-- Channel record built from a two-line playlist entry: `line_one` is the
normalised metadata line, `url_line` the raw following line (scrape.py
lines 117-134). -/
def load_entry (line_one url_line : Str) : Channel :=
  { name := pyStrip (lastFieldAfterComma line_one)
    tvg_logo := search_tvg_logo line_one
    tvg_id := search_tvg_id line_one
    infohash := extract_infohash_from_url url_line
    content_id := extract_content_id_from_url url_line
    last_not_found := search_last_found line_one }

/-- The line loop of load_from_file; the second argument is the `line_one`
state (empty = no pending metadata line). -/
def load_from_lines : List Str → Str → List Channel
  | [], _ => []
  | line :: rest, line_one =>
    let line_normalised := pyStrip (pyReplace "#EXTINF:-1,".toList "#EXTINF:-1".toList line)
    if strStartsWith "#EXTINF:".toList line then
      load_from_lines rest line_normalised
    else if line_one ≠ [] then
      load_entry line_one line :: load_from_lines rest []
    else
      load_from_lines rest line_one

/-- load_from_file on the text contents of one playlist file. -/
def load_from_content (content : Str) : List Channel :=
  load_from_lines (pySplitLines content) []

/-- Whether any current channel with a non-empty content_id has the previous
channel's content_id (scrape.py lines 143-147). -/
def found_content_id (prev : Channel) (current_channels : List Channel) : Bool :=
  current_channels.any (fun cur => cur.content_id != [] && prev.content_id == cur.content_id)

/-- Whether any current channel with a non-empty infohash has the previous
channel's infohash (scrape.py lines 148-152). -/
def found_infohash (prev : Channel) (current_channels : List Channel) : Bool :=
  current_channels.any (fun cur => cur.infohash != [] && prev.infohash == cur.infohash)

/-- The staleness test `CURRENT_TIME - last_added > STALE_CHANNEL_TIME_THRESHOLD`
(scrape.py line 157), with `now_us` the current time in microseconds and
`last_not_found` in seconds. -/
def isStale (now_us : Int) (last_not_found : Int) : Bool :=
  now_us - last_not_found * 1000000 > STALE_THRESHOLD_US

/-- The stamp `int(CURRENT_TIME.timestamp())` (scrape.py line 162): seconds,
truncated toward zero as Python `int()` does. -/
def stampSeconds (now_us : Int) : Int := Int.tdiv now_us 1000000

/-- get_recent_missing_channels (scrape.py lines 137-168), with the module
global CURRENT_TIME passed explicitly in microseconds. -/
def get_recent_missing_channels (now_us : Int) (previous_channels current_channels : List Channel) :
    List Channel :=
  match previous_channels with
  | [] => []
  | prev :: rest =>
    if !found_infohash prev current_channels && !found_content_id prev current_channels then
      if isStale now_us prev.last_not_found then
        get_recent_missing_channels now_us rest current_channels
      else
        { prev with last_not_found := stampSeconds now_us }
          :: get_recent_missing_channels now_us rest current_channels
    else
      get_recent_missing_channels now_us rest current_channels

-- region playlist serialization (scrape.py lines 311-330)

/-- The `#EXTINF` metadata line written for a channel, including its trailing
newline (scrape.py line 322). -/
def channel_top_line (c : Channel) : Str :=
  "#EXTINF:-1 tvg-logo=\"".toList ++ c.tvg_logo
    ++ "\" tvg-id=\"".toList ++ c.tvg_id
    ++ "\" group-title=\"".toList ++ c.category
    ++ "\" x-last-found=\"".toList ++ intToStr c.last_not_found
    ++ "\", ".toList ++ c.name ++ ['\n']

/-- The two lines (or nothing) one channel contributes to the file of one URI
scheme (scrape.py lines 321-328). -/
def channel_entry (scheme_name scheme_pre : Str) (c : Channel) : Str :=
  if c.infohash ≠ [] ∧ scheme_name = "local_infohash".toList then
    channel_top_line c ++ scheme_pre ++ c.infohash ++ ['\n']
  else if c.content_id ≠ [] ∧ scheme_name ≠ "local_infohash".toList then
    channel_top_line c ++ scheme_pre ++ c.content_id ++ ['\n']
  else []

/-- The full text create_playlists writes for one URI scheme. -/
def create_playlist_file (scheme_name scheme_pre : Str) (channels : List Channel) : Str :=
  "#EXTM3U\n".toList ++ (channels.map (channel_entry scheme_name scheme_pre)).flatten

-- region deduplication (scrape.py lines 440-460)

/-- Loop of deduplicate_channels with the two seen-sets as explicit state
(Python sets modelled by lists, used only through membership). -/
def deduplicate_channels_aux (seen_infohashes seen_content_ids : List Str) :
    List Channel → List Channel
  | [] => []
  | c :: rest =>
    if c.infohash != [] && seen_infohashes.contains c.infohash then
      deduplicate_channels_aux seen_infohashes seen_content_ids rest
    else if c.content_id != [] && seen_content_ids.contains c.content_id then
      deduplicate_channels_aux seen_infohashes seen_content_ids rest
    else
      c :: deduplicate_channels_aux
        (if c.infohash != [] then c.infohash :: seen_infohashes else seen_infohashes)
        (if c.content_id != [] then c.content_id :: seen_content_ids else seen_content_ids)
        rest

def deduplicate_channels (channel_list : List Channel) : List Channel :=
  deduplicate_channels_aux [] [] channel_list

-- region logo catalog (scrape.py lines 172-197)

/-- Element tree node of Python's xml.etree.ElementTree. -/
inductive XmlElem where
  | mk : Str → List (Str × Str) → List XmlElem → Option Str → XmlElem

def XmlElem.tag : XmlElem → Str
  | .mk t _ _ _ => t

def XmlElem.attrs : XmlElem → List (Str × Str)
  | .mk _ a _ _ => a

def XmlElem.children : XmlElem → List XmlElem
  | .mk _ _ c _ => c

def XmlElem.text : XmlElem → Option Str
  | .mk _ _ _ t => t

/-- `element.findall(tag)`: direct children with the given tag. -/
def XmlElem.findall (e : XmlElem) (t : Str) : List XmlElem :=
  e.children.filter (fun c => c.tag = t)

/-- `element.get(name)`: attribute lookup. -/
def XmlElem.getAttr (e : XmlElem) (n : Str) : Option Str :=
  (e.attrs.find? (fun a => a.1 = n)).map (fun a => a.2)

/-- Python errors get_logos can raise in the model. -/
inductive PyError where
  | fileNotFound
  | nameError
deriving DecidableEq, Repr

/-- The first `logo_url` child loop (scrape.py lines 189-192): returns the new
`logo_url` binding, keeping the old one when no `logo_url` child exists
(Python leaks the loop variable across iterations). -/
def logoUrlOfChannel (old : Option Str) (channel : XmlElem) : Option Str :=
  match channel.children.find? (fun child => child.tag = "logo_url".toList) with
  | some child =>
    some (match child.text with
          | some t => pyStrip t
          | none => [])
  | none => old

/-- The region/channel traversal (scrape.py lines 185-194), threading the
leaked `logo_url` binding; an unbound use raises NameError. -/
def collectLogos (channels : List XmlElem) (logoState : Option Str)
    (acc : List (Str × Str)) : Except PyError (List (Str × Str) × Option Str) :=
  match channels with
  | [] => .ok (acc, logoState)
  | channel :: rest =>
    match channel.getAttr "name".toList with
    | some n =>
      if n ≠ [] then
        let newState := logoUrlOfChannel logoState channel
        match newState with
        | some url => collectLogos rest newState (acc ++ [(n, url)])
        | none => .error .nameError
      else
        collectLogos rest logoState acc
    | none => collectLogos rest logoState acc

def collectLogosRegions (regions : List XmlElem) (logoState : Option Str)
    (acc : List (Str × Str)) : Except PyError (List (Str × Str) × Option Str) :=
  match regions with
  | [] => .ok (acc, logoState)
  | region :: rest =>
    match collectLogos (region.findall "channel".toList) logoState acc with
    | .ok (acc', st') => collectLogosRegions rest st' acc'
    | .error e => .error e

/-- get_logos (scrape.py lines 172-197). The file is `none` when missing (the
`open` call raises FileNotFoundError) or `some content`; `fromstring` stands
for the external XML parser `ET.fromstring`. The name-to-URL dictionary is
modelled as the association sequence of assignments (later keys shadow
earlier ones on lookup, which no claim depends on). -/
def get_logos (fromstring : Str → XmlElem) (file : Option Str) :
    Except PyError (List (Str × Str)) :=
  match file with
  | none => .error .fileNotFound
  | some logos_xml =>
    if logos_xml = [] then .ok []
    else
      let root := fromstring logos_xml
      match collectLogosRegions (root.findall "region".toList) none [] with
      | .ok (acc, _) => .ok acc
      | .error e => .error e

-- region main processing loop (scrape.py lines 524-545)

/-- The state of a channel after the two name steps that precede the
inclusion filter in main's loop (lines 527-531): country-code suffixing and
literal name replacement. Only `name` is touched. -/
def main_pre_filter (name_replacements : List (Str × Str)) (c : Channel) : Channel :=
  let c :=
    if !find_country_code c.name then
      { c with name := c.name ++ ' ' :: get_country_code_from_tvg_id c.tvg_id }
    else c
  if name_replacements ≠ [] then { c with name := do_name_replace c.name name_replacements }
  else c

/-- One iteration of the per-channel loop in main. Returns the final state of
the (in-place mutated) channel object together with whether it was appended
to `channel_list`; `logoMatch` stands for `find_best_logo_match` applied to
the loaded logo catalog (it calls the external fuzzywuzzy matcher). -/
def main_process_one (logoMatch : Str → Str) (name_replacements : List (Str × Str))
    (filter_list : List Str) (c : Channel) : Channel × Bool :=
  let c := main_pre_filter name_replacements c
  if filter_list ≠ [] ∧ ¬ (filter_list.any (fun f => containsSub f c.name)) then
    (c, false)
  else
    let c := { c with tvg_logo := logoMatch c.name }
    let c := if c.tvg_id = [] then { c with tvg_id := get_tvg_id_from_title c.name } else c
    let c := if is_sport_channel c.name then { c with category := "Sports".toList } else c
    (c, true)

/-- The whole per-channel loop of main: kept channels in order. -/
def main_process_channels (logoMatch : Str → Str) (name_replacements : List (Str × Str))
    (filter_list : List Str) : List Channel → List Channel
  | [] => []
  | c :: rest =>
    match main_process_one logoMatch name_replacements filter_list c with
    | (c', true) => c' :: main_process_channels logoMatch name_replacements filter_list rest
    | (_, false) => main_process_channels logoMatch name_replacements filter_list rest

/-- Post-reconciliation channel set of main (lines 549-553) before sorting:
current channels extended with resurrected missing ones, deduplicated. -/
def reconcile (now_us : Int) (previous_channels current_channels : List Channel) :
    List Channel :=
  deduplicate_channels
    (current_channels ++ get_recent_missing_channels now_us previous_channels current_channels)

-- region claim-side (specification) definitions

/-- Whether a channel's non-empty infohash or non-empty content_id coincides
with the same identifier of some channel in `others` (the identifier-collision
predicate used by both deduplication specifications below). -/
def idMatches (c : Channel) (others : List Channel) : Bool :=
  others.any
    (fun k => (c.infohash != [] && k.infohash == c.infohash)
      || (c.content_id != [] && k.content_id == c.content_id))

/-- Deduplication as claim C4 states it: a record is kept iff no EARLIER INPUT
record (kept or not) carries the same non-empty identifier, so the first
occurrence of each identifier is the one kept. `earlier` accumulates all
records already iterated over. -/
def dedupFirstOccAux (earlier : List Channel) : List Channel → List Channel
  | [] => []
  | c :: rest =>
    if idMatches c earlier then dedupFirstOccAux (earlier ++ [c]) rest
    else c :: dedupFirstOccAux (earlier ++ [c]) rest

def dedupFirstOcc (l : List Channel) : List Channel := dedupFirstOccAux [] l

/-- Deduplication as the code actually behaves (amended claim C4): a record is
kept iff no previously KEPT record carries the same non-empty identifier;
identifiers of discarded records are not recorded. -/
def dedupKeptAux (kept : List Channel) : List Channel → List Channel
  | [] => []
  | c :: rest =>
    if idMatches c kept then dedupKeptAux kept rest
    else c :: dedupKeptAux (kept ++ [c]) rest

def dedupKept (l : List Channel) : List Channel := dedupKeptAux [] l

/-- Well-formedness of a channel for the playlist round trip of claim C2 with
a given URI scheme: the name is non-empty, trimmed, and free of commas,
quotes and newlines; logo and tvg-id are non-empty and, like the category,
free of quotes, commas and newlines and do not end in one of the attribute
keys that a later attribute regex searches for; last_not_found is
non-negative; and exactly the identifier serialized by the scheme is present,
trimmed and newline-free. -/
def WellFormedChannel (sname : Str) (c : Channel) : Prop :=
  (c.name ≠ [] ∧ pyStrip c.name = c.name ∧ '"' ∉ c.name ∧ ',' ∉ c.name ∧ '\n' ∉ c.name)
  ∧ (c.tvg_logo ≠ [] ∧ '"' ∉ c.tvg_logo ∧ ',' ∉ c.tvg_logo ∧ '\n' ∉ c.tvg_logo
      ∧ strEndsWith "tvg-id=".toList c.tvg_logo = false
      ∧ strEndsWith "x-last-found=".toList c.tvg_logo = false)
  ∧ (c.tvg_id ≠ [] ∧ '"' ∉ c.tvg_id ∧ ',' ∉ c.tvg_id ∧ '\n' ∉ c.tvg_id
      ∧ strEndsWith "x-last-found=".toList c.tvg_id = false)
  ∧ ('"' ∉ c.category ∧ ',' ∉ c.category ∧ '\n' ∉ c.category
      ∧ strEndsWith "x-last-found=".toList c.category = false)
  ∧ 0 ≤ c.last_not_found
  ∧ (if sname = "local_infohash".toList then
      c.infohash ≠ [] ∧ c.content_id = [] ∧ pyStrip c.infohash = c.infohash ∧ '\n' ∉ c.infohash
    else
      c.content_id ≠ [] ∧ c.infohash = [] ∧ pyStrip c.content_id = c.content_id ∧ '\n' ∉ c.content_id)

instance (sname : Str) (c : Channel) : Decidable (WellFormedChannel sname c) := by
  unfold WellFormedChannel
  infer_instance

-- region literal chunks of the serialized metadata line, used to reason about
-- the round trip (claim C2)

def LIT_EXTINF_SP : Str := "#EXTINF:-1 ".toList
def LIT_QSP : Str := "\" ".toList
def LIT_GROUP : Str := "\" group-title=\"".toList
def LIT_COMMA_SP : Str := "\", ".toList

/-- The metadata line (without its newline) re-grouped around the literal
chunks the three attribute regexes search for; equal to
`channel_top_line` minus the newline (see `channel_top_line_parts`). -/
def top_line_parts (logo tvgid cat num name : Str) : Str :=
  LIT_EXTINF_SP ++ (LIT_TVG_LOGO ++ (logo ++ (LIT_QSP ++ (LIT_TVG_ID ++ (tvgid ++
    (LIT_GROUP ++ (cat ++ (LIT_QSP ++ (LIT_LAST_FOUND ++ (num ++ (LIT_COMMA_SP ++ name)))))))))))

/-- Everything of the metadata line before the channel name. -/
def top_line_pre_name (logo tvgid cat num : Str) : Str :=
  LIT_EXTINF_SP ++ (LIT_TVG_LOGO ++ (logo ++ (LIT_QSP ++ (LIT_TVG_ID ++ (tvgid ++
    (LIT_GROUP ++ (cat ++ (LIT_QSP ++ (LIT_LAST_FOUND ++ (num ++ LIT_COMMA_SP))))))))))

/-- Everything of the metadata line before its (unique, when the fields are
comma-free) comma: ends with the closing double quote of x-last-found. -/
def top_line_pre_comma (logo tvgid cat num : Str) : Str :=
  LIT_EXTINF_SP ++ (LIT_TVG_LOGO ++ (logo ++ (LIT_QSP ++ (LIT_TVG_ID ++ (tvgid ++
    (LIT_GROUP ++ (cat ++ (LIT_QSP ++ (LIT_LAST_FOUND ++ (num ++ ['"']))))))))))

-- region helper lemmas

theorem extractIdAux_eq_find (prefixes : List Str) (url : Str) :
    extractIdAux prefixes url =
      match prefixes.find? (fun p => strStartsWith p url) with
      | some p => pyStrip (url.drop p.length)
      | none => [] := by
  induction prefixes with
  | nil => rfl
  | cons p ps ih =>
    by_cases h : strStartsWith p url
    · simp [extractIdAux, h, List.find?_cons_of_pos]
    · rw [extractIdAux]
      simp only [h, if_false, Bool.false_eq_true]
      rw [ih, List.find?_cons_of_neg]
      simpa using h

theorem extractIdAux_matched (prefixes : List Str) (url : Str)
    (h : extractIdAux prefixes url ≠ []) :
    ∃ p ∈ prefixes, strStartsWith p url = true := by
  induction prefixes with
  | nil => simp [extractIdAux] at h
  | cons p ps ih =>
    by_cases hp : strStartsWith p url
    · exact ⟨p, List.mem_cons_self _ _, hp⟩
    · rw [extractIdAux] at h
      simp only [hp, if_false, Bool.false_eq_true] at h
      obtain ⟨q, hq, hqs⟩ := ih h
      exact ⟨q, List.mem_cons_of_mem _ hq, hqs⟩

theorem strStartsWith_comparable (s p q : Str)
    (hp : strStartsWith p s = true) (hq : strStartsWith q s = true) :
    strStartsWith p q = true ∨ strStartsWith q p = true := by
  induction s generalizing p q with
  | nil =>
    cases p with
    | nil => left; rfl
    | cons a as => simp [strStartsWith] at hp
  | cons c cs ih =>
    cases p with
    | nil => left; rfl
    | cons a as =>
      cases q with
      | nil => right; rfl
      | cons b bs =>
        simp only [strStartsWith, Bool.and_eq_true, beq_iff_eq] at hp hq
        obtain ⟨rfl, hp2⟩ := hp
        obtain ⟨rfl, hq2⟩ := hq
        rcases ih as bs hp2 hq2 with h | h
        · left; simp [strStartsWith, h]
        · right; simp [strStartsWith, h]

-- region claim C9

/-- Claim C9: get_country_code_from_tvg_id maps "sport.uk" to "[UK]",
"DE: Channel" to "[DE]" and "unknown" to "[?]"; the trailing ".xx" pattern is
tried before the leading "XX " / "XX:" pattern, witnessed by an input matching
both where the first pattern's code wins. -/
theorem claim_C9_country_code_derivation :
    get_country_code_from_tvg_id "sport.uk".toList = "[UK]".toList
    ∧ get_country_code_from_tvg_id "DE: Channel".toList = "[DE]".toList
    ∧ get_country_code_from_tvg_id "unknown".toList = "[?]".toList
    ∧ get_country_code_from_tvg_id "DE: news.uk".toList = "[UK]".toList := by
  decide

-- region claim C1

/-- Claim C1 (code bug evaluation): a historical channel that was present last
run (last_not_found = 0) and is absent from the current scrape is classified
as missing, yet get_recent_missing_channels drops it instead of stamping and
resurrecting it, because the staleness test lacks the "last_not_found was
already non-zero" guard: now minus the epoch always exceeds 3 days. Evaluated
at a realistic current time (2023-11-14T22:13:20Z in microseconds). -/
theorem claim_C1_first_time_missing_dropped :
    found_infohash { name := "Old".toList, tvg_logo := [], last_not_found := 0, content_id := "zz".toList } [] = false
    ∧ found_content_id { name := "Old".toList, tvg_logo := [], last_not_found := 0, content_id := "zz".toList } [] = false
    ∧ get_recent_missing_channels 1700000000000000 [{ name := "Old".toList, tvg_logo := [], last_not_found := 0, content_id := "zz".toList }] [] = [] := by
  decide

-- region claim C3

/-- Claim C3 counterexample: when the logo catalog file is missing, get_logos
does not return an empty mapping; the unguarded `open` raises
FileNotFoundError (modelled as an error value), aborting the run. -/
theorem claim_C3_missing_file_raises :
    get_logos (fun _ => XmlElem.mk [] [] [] none) none = Except.error PyError.fileNotFound := rfl

/-- Claim C3 amended: an EMPTY logo catalog file yields an empty name-to-URL
mapping without consulting the XML parser, but a MISSING file raises
FileNotFoundError (fatal), for every external XML parser. -/
theorem claim_C3_empty_file_empty_mapping (fromstring : Str → XmlElem) :
    get_logos fromstring (some []) = Except.ok []
    ∧ get_logos fromstring none = Except.error PyError.fileNotFound :=
  ⟨rfl, rfl⟩

-- region claim C5

/-- Claim C5: the staleness comparison is strict. A missing historical channel
whose age (now minus last_not_found) is exactly the 3-day threshold is
stamped and resurrected; one whose age exceeds the threshold by any positive
amount is evicted. -/
theorem claim_C5_staleness_strict (c : Channel) (cur : List Channel) (now_us : Int)
    (hih : found_infohash c cur = false) (hcid : found_content_id c cur = false) :
    (now_us - c.last_not_found * 1000000 = STALE_THRESHOLD_US →
      get_recent_missing_channels now_us [c] cur =
        [{ c with last_not_found := stampSeconds now_us }])
    ∧ (STALE_THRESHOLD_US < now_us - c.last_not_found * 1000000 →
      get_recent_missing_channels now_us [c] cur = []) := by
  constructor
  · intro h
    have hs : isStale now_us c.last_not_found = false := by
      simp [isStale, h]
    simp [get_recent_missing_channels, hih, hcid, hs]
  · intro h
    have hs : isStale now_us c.last_not_found = true := by
      simp [isStale]
      omega
    simp [get_recent_missing_channels, hih, hcid, hs]

/-- Witness for claim C5 at a concrete boundary input: last_not_found = 100 s,
now = 259300000000 us, so the age is exactly 3 days and the channel is
resurrected with the stamp 259300 s. -/
theorem claim_C5_staleness_strict_witness :
    get_recent_missing_channels 259300000000
        [{ name := [], tvg_logo := [], last_not_found := 100 }] [] =
      [{ name := [], tvg_logo := [], last_not_found := 259300 }] :=
  (claim_C5_staleness_strict { name := [], tvg_logo := [], last_not_found := 100 } []
    259300000000 (by decide) (by decide)).1 (by decide)

-- region claim C6

/-- Claim C6: each identifier extractor tries its prefix list in order and
returns the whitespace-trimmed remainder after the first matching prefix, or
the empty string when no prefix matches (stated via the first-match semantics
of List.find?). -/
theorem claim_C6_extractor_first_matching_prefix (url : Str) :
    (extract_infohash_from_url url =
      match ACE_URL_PREFIXES_INFOHASH.find? (fun p => strStartsWith p url) with
      | some p => pyStrip (url.drop p.length)
      | none => [])
    ∧ (extract_content_id_from_url url =
      match ACE_URL_PREFIXES_CONTENT_ID.find? (fun p => strStartsWith p url) with
      | some p => pyStrip (url.drop p.length)
      | none => []) :=
  ⟨extractIdAux_eq_find _ _, extractIdAux_eq_find _ _⟩

-- region claim C7

/-- Claim C7: for every URL at most one of the two extracted identifiers is
non-empty (no URL simultaneously matches a content-id prefix and an infohash
prefix), so a channel built from a single playback URL never has both
identifiers non-empty. -/
theorem claim_C7_identifier_mutual_exclusion (url : Str) :
    extract_content_id_from_url url = [] ∨ extract_infohash_from_url url = [] := by
  by_contra h
  push_neg at h
  obtain ⟨hc, hi⟩ := h
  obtain ⟨p, hp, hps⟩ := extractIdAux_matched _ _ hc
  obtain ⟨q, hq, hqs⟩ := extractIdAux_matched _ _ hi
  have hcomp := strStartsWith_comparable url p q hps hqs
  fin_cases hp <;> fin_cases hq <;> revert hcomp <;> decide

-- region claim C4

/-- Claim C4 counterexample: with ch1 = (infohash "A"), ch2 = (infohash "A",
content_id "B"), ch3 = (content_id "B"), the code discards ch2 (its infohash
was seen) WITHOUT recording "B", then keeps ch3 — so the output differs from
the claim's first-occurrence-per-identifier description, under which ch3
(whose content_id "B" already occurred on ch2) would be discarded. -/
theorem claim_C4_first_occurrence_counterexample :
    deduplicate_channels
        [ { name := "a".toList, tvg_logo := [], last_not_found := 0, infohash := "A".toList },
          { name := "b".toList, tvg_logo := [], last_not_found := 0, infohash := "A".toList, content_id := "B".toList },
          { name := "c".toList, tvg_logo := [], last_not_found := 0, content_id := "B".toList } ]
      = [ { name := "a".toList, tvg_logo := [], last_not_found := 0, infohash := "A".toList },
          { name := "c".toList, tvg_logo := [], last_not_found := 0, content_id := "B".toList } ]
    ∧ dedupFirstOcc
        [ { name := "a".toList, tvg_logo := [], last_not_found := 0, infohash := "A".toList },
          { name := "b".toList, tvg_logo := [], last_not_found := 0, infohash := "A".toList, content_id := "B".toList },
          { name := "c".toList, tvg_logo := [], last_not_found := 0, content_id := "B".toList } ]
      = [ { name := "a".toList, tvg_logo := [], last_not_found := 0, infohash := "A".toList } ]
    ∧ deduplicate_channels
        [ { name := "a".toList, tvg_logo := [], last_not_found := 0, infohash := "A".toList },
          { name := "b".toList, tvg_logo := [], last_not_found := 0, infohash := "A".toList, content_id := "B".toList },
          { name := "c".toList, tvg_logo := [], last_not_found := 0, content_id := "B".toList } ]
      ≠ dedupFirstOcc
        [ { name := "a".toList, tvg_logo := [], last_not_found := 0, infohash := "A".toList },
          { name := "b".toList, tvg_logo := [], last_not_found := 0, infohash := "A".toList, content_id := "B".toList },
          { name := "c".toList, tvg_logo := [], last_not_found := 0, content_id := "B".toList } ] := by
  refine ⟨by decide, by decide, by decide⟩

theorem dedup_aux_eq_kept (l : List Channel) :
    ∀ (kept : List Channel) (s1 s2 : List Str),
      (∀ x : Str, s1.contains x = true ↔ x ≠ [] ∧ ∃ k ∈ kept, k.infohash = x) →
      (∀ x : Str, s2.contains x = true ↔ x ≠ [] ∧ ∃ k ∈ kept, k.content_id = x) →
      deduplicate_channels_aux s1 s2 l = dedupKeptAux kept l := by
  induction l with
  | nil => intro kept s1 s2 _ _; rfl
  | cons c rest ih =>
    intro kept s1 s2 h1 h2
    have hA : (c.infohash != [] && s1.contains c.infohash) = true ↔
        (∃ k ∈ kept, c.infohash ≠ [] ∧ k.infohash = c.infohash) := by
      rw [Bool.and_eq_true, h1 c.infohash]
      simp [bne_iff_ne]
      tauto
    have hB : (c.content_id != [] && s2.contains c.content_id) = true ↔
        (∃ k ∈ kept, c.content_id ≠ [] ∧ k.content_id = c.content_id) := by
      rw [Bool.and_eq_true, h2 c.content_id]
      simp [bne_iff_ne]
      tauto
    have hM : idMatches c kept = true ↔
        (∃ k ∈ kept, c.infohash ≠ [] ∧ k.infohash = c.infohash)
        ∨ (∃ k ∈ kept, c.content_id ≠ [] ∧ k.content_id = c.content_id) := by
      simp [idMatches, List.any_eq_true, bne_iff_ne]
      constructor
      · rintro ⟨k, hk, hor⟩
        rcases hor with h | h
        · exact Or.inl ⟨k, hk, h⟩
        · exact Or.inr ⟨k, hk, h⟩
      · rintro (⟨k, hk, h⟩ | ⟨k, hk, h⟩)
        · exact ⟨k, hk, Or.inl h⟩
        · exact ⟨k, hk, Or.inr h⟩
    by_cases hm : idMatches c kept = true
    · rw [dedupKeptAux, if_pos hm]
      rcases hM.mp hm with hx | hx
      · rw [deduplicate_channels_aux, if_pos (hA.mpr hx)]
        exact ih kept s1 s2 h1 h2
      · by_cases hA2 : (c.infohash != [] && s1.contains c.infohash) = true
        · rw [deduplicate_channels_aux, if_pos hA2]
          exact ih kept s1 s2 h1 h2
        · rw [deduplicate_channels_aux, if_neg hA2, if_pos (hB.mpr hx)]
          exact ih kept s1 s2 h1 h2
    · have hxM := hM.not.mp hm
      push_neg at hxM
      have hA2 : ¬ (c.infohash != [] && s1.contains c.infohash) = true := by
        rw [hA]
        push_neg
        exact hxM.1
      have hB2 : ¬ (c.content_id != [] && s2.contains c.content_id) = true := by
        rw [hB]
        push_neg
        exact hxM.2
      rw [deduplicate_channels_aux, if_neg hA2, if_neg hB2, dedupKeptAux, if_neg hm]
      congr 1
      apply ih
      · intro x
        by_cases hih : c.infohash != []
        · simp only [hih, if_true, List.contains_cons]
          rw [Bool.or_eq_true, h1 x]
          constructor
          · rintro (hx | ⟨hne, k, hk, he⟩)
            · rw [beq_iff_eq] at hx
              subst hx
              exact ⟨by simpa [bne_iff_ne] using hih, c, by simp, rfl⟩
            · exact ⟨hne, k, by simp [hk], he⟩
          · rintro ⟨hne, k, hk, he⟩
            rcases List.mem_append.mp hk with hk | hk
            · exact Or.inr ⟨hne, k, hk, he⟩
            · simp only [List.mem_singleton] at hk
              subst hk
              exact Or.inl (by rw [beq_iff_eq]; exact he.symm)
        · simp only [hih, Bool.false_eq_true, if_false]
          rw [h1 x]
          constructor
          · rintro ⟨hne, k, hk, he⟩
            exact ⟨hne, k, by simp [hk], he⟩
          · rintro ⟨hne, k, hk, he⟩
            rcases List.mem_append.mp hk with hk | hk
            · exact ⟨hne, k, hk, he⟩
            · simp only [List.mem_singleton] at hk
              subst hk
              exfalso
              simp only [bne_iff_ne, Ne, Decidable.not_not] at hih
              rw [hih] at he
              exact hne he.symm
      · intro x
        by_cases hcid : c.content_id != []
        · simp only [hcid, if_true, List.contains_cons]
          rw [Bool.or_eq_true, h2 x]
          constructor
          · rintro (hx | ⟨hne, k, hk, he⟩)
            · rw [beq_iff_eq] at hx
              subst hx
              exact ⟨by simpa [bne_iff_ne] using hcid, c, by simp, rfl⟩
            · exact ⟨hne, k, by simp [hk], he⟩
          · rintro ⟨hne, k, hk, he⟩
            rcases List.mem_append.mp hk with hk | hk
            · exact Or.inr ⟨hne, k, hk, he⟩
            · simp only [List.mem_singleton] at hk
              subst hk
              exact Or.inl (by rw [beq_iff_eq]; exact he.symm)
        · simp only [hcid, Bool.false_eq_true, if_false]
          rw [h2 x]
          constructor
          · rintro ⟨hne, k, hk, he⟩
            exact ⟨hne, k, by simp [hk], he⟩
          · rintro ⟨hne, k, hk, he⟩
            rcases List.mem_append.mp hk with hk | hk
            · exact ⟨hne, k, hk, he⟩
            · simp only [List.mem_singleton] at hk
              subst hk
              exfalso
              simp only [bne_iff_ne, Ne, Decidable.not_not] at hcid
              rw [hcid] at he
              exact hne he.symm

/-- Claim C4 amended: deduplicate_channels keeps a record iff its non-empty
infohash and non-empty content_id have not been seen on a previously KEPT
record (identifiers of discarded records are not recorded, so a later record
can survive even though its identifier occurred earlier on a discarded
record); records with both identifiers empty are always kept. -/
theorem claim_C4_amended_dedup_kept_characterization (l : List Channel) :
    deduplicate_channels l = dedupKept l :=
  dedup_aux_eq_kept l [] [] []
    (by intro x; simp [List.contains])
    (by intro x; simp [List.contains])

-- region claim C10

theorem found_infohash_of_empty (cur : List Channel) (c : Channel) (h : c.infohash = []) :
    found_infohash c cur = false := by
  rw [found_infohash, List.any_eq_false]
  intro k _
  rcases eq_or_ne k.infohash [] with hk | hk <;> simp [hk, h]

theorem found_content_id_of_empty (cur : List Channel) (c : Channel) (h : c.content_id = []) :
    found_content_id c cur = false := by
  rw [found_content_id, List.any_eq_false]
  intro k _
  rcases eq_or_ne k.content_id [] with hk | hk <;> simp [hk, h]

theorem mem_missing_of_no_id (now_us : Int) (cur : List Channel) (c : Channel)
    (prevs : List Channel) (hmem : c ∈ prevs) (hih : c.infohash = [])
    (hcid : c.content_id = []) (hfresh : isStale now_us c.last_not_found = false) :
    { c with last_not_found := stampSeconds now_us } ∈
      get_recent_missing_channels now_us prevs cur := by
  induction prevs with
  | nil => cases hmem
  | cons p rest ih =>
    rw [get_recent_missing_channels]
    rcases List.mem_cons.mp hmem with rfl | hmem'
    · rw [found_infohash_of_empty cur c hih, found_content_id_of_empty cur c hcid]
      simp only [Bool.not_false, Bool.and_self, if_true, hfresh, Bool.false_eq_true, if_false]
      exact List.mem_cons_self _ _
    · split
      · split
        · exact ih hmem'
        · exact List.mem_cons_of_mem _ (ih hmem')
      · exact ih hmem'

theorem mem_dedup_aux_of_no_id (c : Channel) (hih : c.infohash = []) (hcid : c.content_id = []) :
    ∀ (l : List Channel) (s1 s2 : List Str), c ∈ l → c ∈ deduplicate_channels_aux s1 s2 l := by
  intro l
  induction l with
  | nil => intro s1 s2 h; cases h
  | cons d rest ih =>
    intro s1 s2 h
    rw [deduplicate_channels_aux]
    rcases List.mem_cons.mp h with rfl | h'
    · rw [if_neg (by simp [hih]), if_neg (by simp [hcid])]
      exact List.mem_cons_self _ _
    · split
      · exact ih _ _ h'
      · split
        · exact ih _ _ h'
        · exact List.mem_cons_of_mem _ (ih _ _ h')

/-- Claim C10: a historical channel with both identifiers empty is never
matched against any current channel (both found-flags are false), so it is
classified as missing on every run, and whenever it passes the staleness test
the stamped copy is resurrected into the missing list and survives into the
run's deduplicated output set. -/
theorem claim_C10_no_id_channel_always_resurrected (prevs cur : List Channel) (now_us : Int)
    (c : Channel) (hmem : c ∈ prevs) (hih : c.infohash = []) (hcid : c.content_id = [])
    (hfresh : isStale now_us c.last_not_found = false) :
    found_infohash c cur = false
    ∧ found_content_id c cur = false
    ∧ { c with last_not_found := stampSeconds now_us } ∈
        get_recent_missing_channels now_us prevs cur
    ∧ { c with last_not_found := stampSeconds now_us } ∈ reconcile now_us prevs cur := by
  have hmiss := mem_missing_of_no_id now_us cur c prevs hmem hih hcid hfresh
  refine ⟨found_infohash_of_empty cur c hih, found_content_id_of_empty cur c hcid, hmiss, ?_⟩
  exact mem_dedup_aux_of_no_id { c with last_not_found := stampSeconds now_us } hih hcid
    _ [] [] (List.mem_append_right _ hmiss)

/-- Witness for claim C10: previous channel with no identifiers and
last_not_found = 0, current list empty, now = 1000000 us; the channel is
missing, fresh, and the stamped copy (last_not_found = 1 s) reaches both the
missing list and the reconciled output. -/
theorem claim_C10_no_id_channel_always_resurrected_witness :
    found_infohash { name := "q".toList, tvg_logo := [], last_not_found := 0 } [] = false
    ∧ found_content_id { name := "q".toList, tvg_logo := [], last_not_found := 0 } [] = false
    ∧ ({ name := "q".toList, tvg_logo := [], last_not_found := stampSeconds 1000000 } : Channel) ∈
        get_recent_missing_channels 1000000 [{ name := "q".toList, tvg_logo := [], last_not_found := 0 }] []
    ∧ ({ name := "q".toList, tvg_logo := [], last_not_found := stampSeconds 1000000 } : Channel) ∈
        reconcile 1000000 [{ name := "q".toList, tvg_logo := [], last_not_found := 0 }] [] :=
  claim_C10_no_id_channel_always_resurrected
    [{ name := "q".toList, tvg_logo := [], last_not_found := 0 }] [] 1000000
    { name := "q".toList, tvg_logo := [], last_not_found := 0 }
    (by decide) rfl rfl (by decide)

-- region claim C8

theorem main_pre_filter_frame (repl : List (Str × Str)) (c : Channel) :
    (main_pre_filter repl c).tvg_logo = c.tvg_logo
    ∧ (main_pre_filter repl c).tvg_id = c.tvg_id
    ∧ (main_pre_filter repl c).category = c.category
    ∧ (main_pre_filter repl c).infohash = c.infohash
    ∧ (main_pre_filter repl c).content_id = c.content_id
    ∧ (main_pre_filter repl c).last_not_found = c.last_not_found := by
  rw [main_pre_filter]
  split <;> split <;> exact ⟨rfl, rfl, rfl, rfl, rfl, rfl⟩

/-- Claim C8: when a non-empty filter list is configured and the channel's
name (after country-code suffixing and literal replacements) contains no
filter string as a substring, the loop iteration stops at the filter: the
channel is returned unappended (dropped from the output of the processing
loop) with its tvg_logo, tvg_id and category exactly as they came from
source parsing, the logo/tvg-id/category enrichment never having run. -/
theorem claim_C8_filter_drop_frame (logoMatch : Str → Str) (repl : List (Str × Str))
    (filt : List Str) (c : Channel) (hfilt : filt ≠ [])
    (hnomatch : ∀ f ∈ filt, containsSub f (main_pre_filter repl c).name = false) :
    main_process_one logoMatch repl filt c = (main_pre_filter repl c, false)
    ∧ (main_pre_filter repl c).tvg_logo = c.tvg_logo
    ∧ (main_pre_filter repl c).tvg_id = c.tvg_id
    ∧ (main_pre_filter repl c).category = c.category
    ∧ main_process_channels logoMatch repl filt [c] = [] := by
  have hany : filt.any (fun f => containsSub f (main_pre_filter repl c).name) = false := by
    rw [List.any_eq_false]
    intro f hf
    simp [hnomatch f hf]
  have hone : main_process_one logoMatch repl filt c = (main_pre_filter repl c, false) := by
    rw [main_process_one, if_pos ⟨hfilt, by simp [hany]⟩]
  obtain ⟨h1, h2, h3, _⟩ := main_pre_filter_frame repl c
  refine ⟨hone, h1, h2, h3, ?_⟩
  rw [main_process_channels, hone]
  rfl

/-- Witness for claim C8: filter list ["XYZ"], empty replacement table, a
channel named "Foo [UK]" (which keeps its name through the pre-filter steps
and contains no filter string): the loop drops it and emits nothing. -/
theorem claim_C8_filter_drop_frame_witness :
    main_process_channels (fun _ => []) [] ["XYZ".toList]
      [{ name := "Foo [UK]".toList, tvg_logo := "L".toList, last_not_found := 0, tvg_id := "t".toList, category := "news".toList }] = [] :=
  (claim_C8_filter_drop_frame (fun _ => []) [] ["XYZ".toList]
    { name := "Foo [UK]".toList, tvg_logo := "L".toList, last_not_found := 0, tvg_id := "t".toList, category := "news".toList }
    (by decide) (by decide)).2.2.2.2

-- region base string lemmas for the round-trip proof (claim C2)

theorem dropWhile_length_le (p : Char → Bool) (l : Str) :
    (l.dropWhile p).length ≤ l.length :=
  (List.dropWhile_suffix p).length_le

theorem strStartsWith_iff_append (p s : Str) :
    strStartsWith p s = true ↔ ∃ u, s = p ++ u := by
  induction p generalizing s with
  | nil => simp [strStartsWith]
  | cons a as ih =>
    cases s with
    | nil =>
      simp [strStartsWith]
    | cons c cs =>
      simp only [strStartsWith, Bool.and_eq_true, beq_iff_eq, ih]
      constructor
      · rintro ⟨rfl, u, rfl⟩
        exact ⟨u, rfl⟩
      · rintro ⟨u, he⟩
        rw [List.cons_append] at he
        cases he
        exact ⟨rfl, u, rfl⟩
      

theorem strStartsWith_self_append (p x : Str) : strStartsWith p (p ++ x) = true :=
  (strStartsWith_iff_append p (p ++ x)).mpr ⟨x, rfl⟩

theorem strStartsWith_nil_iff (p : Str) : strStartsWith p [] = true ↔ p = [] := by
  cases p <;> simp [strStartsWith]

theorem strStartsWith_false_of_short (p s : Str) (h : s.length < p.length) :
    strStartsWith p s = false := by
  rw [Bool.eq_false_iff]
  intro hc
  obtain ⟨u, rfl⟩ := (strStartsWith_iff_append p s).mp hc
  simp at h

theorem strStartsWith_append_left (p s x : Str) (h : p.length ≤ s.length) :
    strStartsWith p (s ++ x) = strStartsWith p s := by
  induction p generalizing s with
  | nil => simp [strStartsWith]
  | cons a as ih =>
    cases s with
    | nil => simp at h
    | cons c cs =>
      simp only [List.cons_append, strStartsWith, List.append_eq]
      rw [ih cs (by simpa using h)]

theorem strStartsWith_append_false (p s x : Str)
    (h1 : strStartsWith p s = false) (h2 : strStartsWith s p = false) :
    strStartsWith p (s ++ x) = false := by
  rw [Bool.eq_false_iff]
  intro hc
  rcases strStartsWith_comparable (s ++ x) p s hc (strStartsWith_self_append s x) with h | h
  · rw [h] at h1; cases h1
  · rw [h] at h2; cases h2

theorem takeWhile_append_all (p : Char → Bool) (x y : Str) (h : ∀ c ∈ x, p c = true) :
    (x ++ y).takeWhile p = x ++ y.takeWhile p := by
  induction x with
  | nil => rfl
  | cons c r ih =>
    simp [List.takeWhile_cons, h c (List.mem_cons_self c r), ih
      (fun d hd => h d (List.mem_cons_of_mem c hd))]

theorem dropWhile_length_eq_self (p : Char → Bool) (l : Str)
    (h : (l.dropWhile p).length = l.length) : l.dropWhile p = l := by
  induction l with
  | nil => rfl
  | cons c r ih =>
    by_cases hp : p c = true
    · exfalso
      rw [List.dropWhile_cons, if_pos hp] at h
      have := dropWhile_length_le p r
      simp at h
      omega
    · rw [List.dropWhile_cons, if_neg (by simp [hp])]

theorem dropWhile_cons_self (p : Char → Bool) (d : Char) (r : Str)
    (h : (d :: r).dropWhile p = d :: r) : p d = false := by
  by_cases hp : p d = true
  · exfalso
    rw [List.dropWhile_cons, if_pos hp] at h
    have h2 := congrArg List.length h
    have := dropWhile_length_le p r
    simp at h2
    omega
  · simpa using hp

theorem pyStrip_parts (s : Str) (h : pyStrip s = s) :
    pyStripLeft s = s ∧ pyStripRight s = s := by
  have hl1 : (pyStripLeft s).length ≤ s.length := dropWhile_length_le _ _
  have hr1 : (pyStripRight (pyStripLeft s)).length ≤ (pyStripLeft s).length := by
    rw [pyStripRight]
    simpa using dropWhile_length_le isPySpace (pyStripLeft s).reverse
  rw [pyStrip] at h
  have hlen : (pyStripLeft s).length = s.length := by
    have := congrArg List.length h
    omega
  have hL : pyStripLeft s = s := dropWhile_length_eq_self _ _ hlen
  rw [hL] at h
  exact ⟨hL, h⟩

theorem pyStripLeft_cons (c : Char) (r : Str) (h : isPySpace c = false) :
    pyStripLeft (c :: r) = c :: r := by
  rw [pyStripLeft, List.dropWhile_cons, if_neg (by simp [h])]

theorem pyStripRight_append_space (a : Str) (d : Char) (h : isPySpace d = true) :
    pyStripRight (a ++ [d]) = pyStripRight a := by
  rw [pyStripRight, pyStripRight, List.reverse_append]
  simp [List.dropWhile_cons, h]

theorem pyStripRight_concat (b : Str) (d : Char) (h : isPySpace d = false) :
    pyStripRight (b ++ [d]) = b ++ [d] := by
  rw [pyStripRight, List.reverse_append]
  simp only [List.reverse_cons, List.reverse_nil, List.nil_append, List.singleton_append,
    List.dropWhile_cons, h]
  simp

theorem exists_concat_of_ne_nil (s : Str) (h : s ≠ []) : ∃ b d, s = b ++ [d] := by
  induction s with
  | nil => cases h rfl
  | cons c r ih =>
    cases hr : r with
    | nil => exact ⟨[], c, rfl⟩
    | cons x xs =>
      obtain ⟨b, d, hbd⟩ := ih (by simp [hr])
      exact ⟨c :: b, d, by rw [← hr, hbd]; rfl⟩

theorem trimmed_last_not_space (s : Str) (hne : s ≠ []) (h : pyStrip s = s) :
    ∃ b d, s = b ++ [d] ∧ isPySpace d = false := by
  obtain ⟨hL, hR⟩ := pyStrip_parts s h
  obtain ⟨b, d, rfl⟩ := exists_concat_of_ne_nil s hne
  refine ⟨b, d, rfl, ?_⟩
  rw [pyStripRight, List.reverse_append] at hR
  simp only [List.reverse_cons, List.reverse_nil, List.nil_append, List.singleton_append] at hR
  have h2 := congrArg List.reverse hR
  rw [List.reverse_reverse, List.reverse_append] at h2
  simp only [List.reverse_cons, List.reverse_nil, List.nil_append, List.singleton_append] at h2
  exact dropWhile_cons_self _ _ _ h2

theorem trimmed_head_not_space (s : Str) (c : Char) (r : Str) (hs : s = c :: r)
    (h : pyStrip s = s) : isPySpace c = false := by
  obtain ⟨hL, _⟩ := pyStrip_parts s h
  rw [hs] at hL
  exact dropWhile_cons_self _ _ _ hL

theorem containsSub_infix (pat s : Str) (h : containsSub pat s = true) :
    ∃ a b, s = a ++ (pat ++ b) := by
  induction s with
  | nil =>
    rw [containsSub] at h
    rw [(strStartsWith_nil_iff pat).mp h]
    exact ⟨[], [], rfl⟩
  | cons c r ih =>
    rw [containsSub, Bool.or_eq_true] at h
    rcases h with h | h
    · obtain ⟨u, hu⟩ := (strStartsWith_iff_append _ _).mp h
      exact ⟨[], u, hu⟩
    · obtain ⟨a, b, hab⟩ := ih h
      exact ⟨c :: a, b, by rw [hab]; rfl⟩

theorem takeWhile_comma_split (x y : Str) (hx : ',' ∉ x) :
    (x ++ ',' :: y).takeWhile (fun c => c != ',') = x := by
  rw [takeWhile_append_all _ x (',' :: y) (fun c hc => by simp; exact fun h => hx (h ▸ hc))]
  simp [List.takeWhile_cons]

theorem comma_unique_split (x y u v : Str) (hx : ',' ∉ x) (hu : ',' ∉ u)
    (he : x ++ ',' :: y = u ++ ',' :: v) : x = u ∧ y = v := by
  have h1 := takeWhile_comma_split x y hx
  have h2 := takeWhile_comma_split u v hu
  rw [he] at h1
  rw [h2] at h1
  subst h1
  constructor
  · rfl
  · have := List.append_cancel_left he
    exact (List.cons_eq_cons.mp this).2

theorem count_comma_zero (l : Str) (h : ',' ∉ l) : l.count ',' = 0 :=
  List.count_eq_zero.mpr h

theorem no_extinf_comma (U V : Str) (U' : Str) (hU' : U = U' ++ ['"'])
    (hU : ',' ∉ U) (hV : ',' ∉ V) :
    containsSub "#EXTINF:-1,".toList (U ++ ',' :: V) = false := by
  rw [Bool.eq_false_iff]
  intro hc
  obtain ⟨a, b, hab⟩ := containsSub_infix _ _ hc
  have hpat : "#EXTINF:-1,".toList = "#EXTINF:-1".toList ++ [','] := rfl
  rw [hpat] at hab
  have hab' : U ++ ',' :: V = (a ++ "#EXTINF:-1".toList) ++ ',' :: b := by
    rw [hab]
    simp
  have hlit : List.count ',' "#EXTINF:-1".toList = 0 := by decide
  have hcount : List.count ',' (U ++ ',' :: V) = 1 := by
    rw [List.count_append, List.count_cons]
    simp [count_comma_zero U hU, count_comma_zero V hV]
  have hcount2 : List.count ',' a = 0 := by
    rw [hab', List.count_append, List.count_append, List.count_cons, hlit] at hcount
    simp at hcount
    omega
  have hnotin : ',' ∉ a ++ "#EXTINF:-1".toList := by
    rw [List.mem_append]
    rintro (h | h)
    · exact (List.count_eq_zero.mp hcount2) h
    · revert h
      decide
  have hsplit := comma_unique_split U V (a ++ "#EXTINF:-1".toList) b hU hnotin hab'
  have hlast : U' ++ ['"'] = (a ++ "#EXTINF:-1 ".toList.take 9) ++ ['1'] := by
    rw [← hU', hsplit.1]
    simp
  have := (List.append_inj' hlast rfl).2
  simp at this

theorem pyReplaceFuel_nop (pat rep : Str) (fuel : Nat) (s : Str)
    (h : containsSub pat s = false) : pyReplaceFuel pat rep fuel s = s := by
  induction fuel generalizing s with
  | zero => rfl
  | succ f ih =>
    cases s with
    | nil => rfl
    | cons c r =>
      rw [containsSub, Bool.or_eq_false_iff] at h
      rw [pyReplaceFuel, if_neg (by simp [h.1])]
      rw [ih r h.2]

theorem pyReplace_nop (pat rep s : Str) (hp : pat ≠ [])
    (h : containsSub pat s = false) : pyReplace pat rep s = s := by
  cases pat with
  | nil => cases hp rfl
  | cons a as => exact pyReplaceFuel_nop _ _ _ _ h

theorem pySplitLines_append (a rest : Str) (ha : '\n' ∉ a) :
    pySplitLines (a ++ '\n' :: rest) = (a ++ ['\n']) :: pySplitLines rest := by
  induction a with
  | nil => simp [pySplitLines]
  | cons c r ih =>
    have hc : c ≠ '\n' := fun h => ha (h ▸ List.mem_cons_self c r)
    have hr : '\n' ∉ r := fun h => ha (List.mem_cons_of_mem c h)
    rw [List.cons_append, pySplitLines, if_neg hc, ih hr]
    rfl

theorem digitChar_isDigit (n : Nat) (h : n < 10) : (digitChar n).isDigit = true := by
  interval_cases n <;> decide

theorem digitChar_toNat (n : Nat) (h : n < 10) : (digitChar n).toNat = 48 + n := by
  interval_cases n <;> decide

theorem natDigitsAux_digits (fuel n : Nat) (h : n < fuel) :
    ∀ c ∈ natDigitsAux fuel n, c.isDigit = true := by
  induction fuel generalizing n with
  | zero => omega
  | succ f ih =>
    intro c hc
    rw [natDigitsAux] at hc
    by_cases h10 : n < 10
    · rw [if_pos h10] at hc
      simp at hc
      rw [hc]
      exact digitChar_isDigit n h10
    · rw [if_neg h10] at hc
      rcases List.mem_append.mp hc with hc | hc
      · exact ih (n / 10) (by omega) c hc
      · simp at hc
        rw [hc]
        exact digitChar_isDigit (n % 10) (Nat.mod_lt n (by omega))

theorem natDigits_digits (n : Nat) : ∀ c ∈ natDigits n, c.isDigit = true :=
  natDigitsAux_digits (n + 1) n (Nat.lt_succ_self n)

theorem natDigitsAux_ne_nil (fuel n : Nat) (h : n < fuel) : natDigitsAux fuel n ≠ [] := by
  cases fuel with
  | zero => omega
  | succ f =>
    rw [natDigitsAux]
    by_cases h10 : n < 10
    · simp [h10]
    · rw [if_neg h10]
      simp

theorem natDigits_ne_nil (n : Nat) : natDigits n ≠ [] :=
  natDigitsAux_ne_nil (n + 1) n (Nat.lt_succ_self n)

theorem parseNat_append (xs ys : Str) :
    parseNat (xs ++ ys) = ys.foldl (fun a c => a * 10 + (c.toNat - 48)) (parseNat xs) := by
  rw [parseNat, List.foldl_append]
  rfl

theorem parseNat_concat_digit (xs : Str) (d : Char) :
    parseNat (xs ++ [d]) = parseNat xs * 10 + (d.toNat - 48) := by
  rw [parseNat_append]
  rfl

theorem parseNat_natDigitsAux (fuel n : Nat) (h : n < fuel) :
    parseNat (natDigitsAux fuel n) = n := by
  induction fuel generalizing n with
  | zero => omega
  | succ f ih =>
    rw [natDigitsAux]
    by_cases h10 : n < 10
    · rw [if_pos h10]
      have : parseNat [digitChar n] = (digitChar n).toNat - 48 := by
        rw [parseNat]
        simp [List.foldl]
      rw [this, digitChar_toNat n h10]
      omega
    · rw [if_neg h10]
      rw [parseNat_concat_digit]
      rw [ih (n / 10) (by omega)]
      rw [digitChar_toNat (n % 10) (Nat.mod_lt n (by omega))]
      omega

theorem parseNat_natDigits (n : Nat) : parseNat (natDigits n) = n :=
  parseNat_natDigitsAux (n + 1) n (Nat.lt_succ_self n)

theorem isDigit_char_facts (c : Char) (h : c.isDigit = true) :
    c ≠ '"' ∧ c ≠ ',' ∧ c ≠ '\n' ∧ isPySpace c = false := by
  refine ⟨?_, ?_, ?_, ?_⟩
  · rintro rfl; exact absurd h (by decide)
  · rintro rfl; exact absurd h (by decide)
  · rintro rfl; exact absurd h (by decide)
  · rw [Bool.eq_false_iff]
    intro hsp
    have hor : c = ' ' ∨ c = '\t' ∨ c = '\n' ∨ c = '\r' ∨ c = '\x0b' ∨ c = '\x0c' := by
      simpa [isPySpace, or_assoc] using hsp
    rcases hor with rfl | rfl | rfl | rfl | rfl | rfl <;> exact absurd h (by decide)

theorem searchAttrP_cons_skip (lit : Str) (p : Char → Bool) (c : Char) (rest : Str)
    (h : strStartsWith lit (c :: rest) = false) :
    searchAttrP lit p (c :: rest) = searchAttrP lit p rest := by
  rw [searchAttrP, if_neg (by simp [h])]

theorem searchAttrP_skip_of_no_match (lit : Str) (p : Char → Bool) (block rest : Str)
    (h : ∀ t, t <:+ block → t ≠ [] → strStartsWith lit (t ++ rest) = false) :
    searchAttrP lit p (block ++ rest) = searchAttrP lit p rest := by
  induction block with
  | nil => rfl
  | cons c r ih =>
    rw [List.cons_append,
      searchAttrP_cons_skip lit p c (r ++ rest) (h (c :: r) (List.suffix_refl _) (by simp))]
    exact ih (fun t ht htne => h t (ht.trans (List.suffix_cons c r)) htne)

theorem searchAttrP_hit (a : Char) (as : Str) (p : Char → Bool) (tail content : Str)
    (hc : tail.takeWhile p = content) (hne : content ≠ [])
    (hq : (tail.drop content.length).head? = some '"') :
    searchAttrP (a :: as) p ((a :: as) ++ tail) = some content := by
  have h1 : strStartsWith (a :: as) (a :: (as ++ tail)) = true := by
    rw [← List.cons_append]
    exact strStartsWith_self_append _ _
  have h2 : (a :: (as ++ tail)).drop (a :: as).length = tail := by
    rw [List.length_cons, List.drop_succ_cons, List.drop_left]
  rw [List.cons_append, searchAttrP, if_pos h1]
  simp only [h2, hc]
  rw [if_pos ⟨hne, hq⟩]

theorem no_match_concrete (lit block rest : Str)
    (h : ∀ t ∈ block.tails, t ≠ [] →
      strStartsWith lit t = false ∧ strStartsWith t lit = false) :
    ∀ t, t <:+ block → t ≠ [] → strStartsWith lit (t ++ rest) = false := by
  intro t hts htne
  have hh := h t ((List.mem_tails _ _).mpr hts) htne
  exact strStartsWith_append_false _ _ _ hh.1 hh.2

theorem no_match_headfree (l0 : Char) (ls : Str) (block rest : Str)
    (h : ∀ c ∈ block, c ≠ l0) :
    ∀ t, t <:+ block → t ≠ [] → strStartsWith (l0 :: ls) (t ++ rest) = false := by
  intro t hts htne
  cases t with
  | nil => cases htne rfl
  | cons c cs =>
    have hc : c ∈ block := hts.subset (List.mem_cons_self c cs)
    rw [List.cons_append, strStartsWith]
    simp [beq_eq_false_iff_ne, (h c hc).symm]

theorem strEndsWith_iff (pat s : Str) : strEndsWith pat s = true ↔ ∃ u, s = u ++ pat := by
  rw [strEndsWith, strStartsWith_iff_append]
  constructor
  · rintro ⟨u, hu⟩
    refine ⟨u.reverse, ?_⟩
    have := congrArg List.reverse hu
    simpa using this
  · rintro ⟨u, rfl⟩
    exact ⟨u.reverse, by simp⟩

theorem no_match_field (lit0 : Str) (block rest : Str)
    (hq0 : '"' ∉ lit0) (hq : '"' ∉ block) (hns : strEndsWith lit0 block = false)
    (hrest : rest.head? = some '"') :
    ∀ t, t <:+ block → t ≠ [] → strStartsWith (lit0 ++ ['"']) (t ++ rest) = false := by
  intro t hts htne
  rw [Bool.eq_false_iff]
  intro hcon
  obtain ⟨u, hu⟩ := (strStartsWith_iff_append _ _).mp hcon
  rcases List.append_eq_append_iff.mp hu with ⟨a2, ha1, ha2⟩ | ⟨c2, hc1, _⟩
  · -- lit0 ++ ['"'] = t ++ a2 and u side; rest = a2 ++ u
    cases a2 with
    | nil =>
      rw [List.append_nil] at ha1
      apply hq
      exact hts.subset (by rw [← ha1]; simp)
    | cons h2 a3 =>
      have hh2 : h2 = '"' := by
        rw [ha2] at hrest
        simp at hrest
        exact hrest
      have hlen : t.length + (h2 :: a3).length = lit0.length + 1 := by
        have := congrArg List.length ha1
        simp at this
        simp
        omega
      have hlt : t.length ≤ lit0.length := by simp at hlen; omega
      rcases eq_or_lt_of_le hlt with heq | hlt2
      · -- t = lit0
        have ht' : t = lit0 := by
          have h3 := congrArg (List.take t.length) ha1
          rw [List.take_left, heq, List.take_left] at h3
          exact h3.symm
        apply absurd hns
        rw [Bool.eq_false_iff, Ne, Decidable.not_not, strEndsWith_iff]
        obtain ⟨w, hw⟩ := hts
        exact ⟨w, by rw [← ht', hw]⟩
      · -- t a proper prefix of lit0: the character after t inside lit0 is h2 = '"'
        have hdrop := congrArg (List.drop t.length) ha1
        rw [List.drop_left] at hdrop
        rw [List.drop_append_of_le_length (le_of_lt hlt2)] at hdrop
        have hne2 : lit0.drop t.length ≠ [] := by
          intro hx
          have := congrArg List.length hx
          simp at this
          omega
        cases hd : lit0.drop t.length with
        | nil => exact hne2 hd
        | cons d ds =>
          rw [hd] at hdrop
          have hdh : d = h2 := by
            rw [List.cons_append] at hdrop
            exact ((List.cons_eq_cons.mp hdrop.symm).1).symm
          apply hq0
          rw [← hh2, ← hdh]
          exact List.mem_of_mem_drop (by rw [hd]; exact List.mem_cons_self d ds)
  · -- t = (lit0 ++ ['"']) ++ c2: a quote inside the block
    apply hq
    exact hts.subset (by rw [hc1]; simp)

theorem bne_quote_of_ne (c : Char) (h : c ≠ '"') : (c != '"') = true := by
  simp [bne_iff_ne, h]

theorem search_logo_parts (logo tvgid cat num name : Str)
    (hlogo_ne : logo ≠ []) (hlogo_q : '"' ∉ logo) :
    searchAttrP LIT_TVG_LOGO (fun c => c != '"')
      (top_line_parts logo tvgid cat num name) = some logo := by
  rw [top_line_parts]
  rw [searchAttrP_skip_of_no_match _ _ LIT_EXTINF_SP _ (no_match_concrete _ _ _ (by decide))]
  rw [show LIT_TVG_LOGO = 't' :: "vg-logo=\"".toList from by decide]
  apply searchAttrP_hit
  · rw [show LIT_QSP = '"' :: [' '] from by decide]
    rw [takeWhile_append_all _ _ _ (fun c hc => bne_quote_of_ne c (fun he => hlogo_q (he ▸ hc)))]
    simp [List.takeWhile_cons]
  · exact hlogo_ne
  · rw [List.drop_left]
    rw [show LIT_QSP = '"' :: [' '] from by decide]
    rfl

theorem search_tvgid_parts (logo tvgid cat num name : Str)
    (htvg_ne : tvgid ≠ []) (htvg_q : '"' ∉ tvgid)
    (hlogo_q : '"' ∉ logo) (hlogo_ns1 : strEndsWith "tvg-id=".toList logo = false) :
    searchAttrP LIT_TVG_ID (fun c => c != '"')
      (top_line_parts logo tvgid cat num name) = some tvgid := by
  rw [top_line_parts]
  rw [searchAttrP_skip_of_no_match _ _ LIT_EXTINF_SP _ (no_match_concrete _ _ _ (by decide))]
  rw [searchAttrP_skip_of_no_match _ _ LIT_TVG_LOGO _ (no_match_concrete _ _ _ (by decide))]
  rw [show LIT_TVG_ID = "tvg-id=".toList ++ ['"'] from by decide]
  rw [searchAttrP_skip_of_no_match _ _ logo _
    (no_match_field _ _ _ (by decide) hlogo_q hlogo_ns1
      (by rw [show LIT_QSP = '"' :: [' '] from by decide]; rfl))]
  rw [searchAttrP_skip_of_no_match _ _ LIT_QSP _ (no_match_concrete _ _ _ (by decide))]
  rw [show "tvg-id=".toList ++ ['"'] = 't' :: "vg-id=\"".toList from by decide]
  apply searchAttrP_hit
  · rw [show LIT_GROUP = '"' :: " group-title=\"".toList from by decide]
    rw [takeWhile_append_all _ _ _ (fun c hc => bne_quote_of_ne c (fun he => htvg_q (he ▸ hc)))]
    simp [List.takeWhile_cons]
  · exact htvg_ne
  · rw [List.drop_left]
    rw [show LIT_GROUP = '"' :: " group-title=\"".toList from by decide]
    rfl

theorem search_lastfound_parts (logo tvgid cat num name : Str)
    (hlogo_q : '"' ∉ logo) (hlogo_ns2 : strEndsWith "x-last-found=".toList logo = false)
    (htvg_q : '"' ∉ tvgid) (htvg_ns : strEndsWith "x-last-found=".toList tvgid = false)
    (hcat_q : '"' ∉ cat) (hcat_ns : strEndsWith "x-last-found=".toList cat = false)
    (hnum_ne : num ≠ []) (hnum_d : ∀ c ∈ num, c.isDigit = true) :
    searchAttrP LIT_LAST_FOUND Char.isDigit
      (top_line_parts logo tvgid cat num name) = some num := by
  rw [top_line_parts]
  rw [searchAttrP_skip_of_no_match _ _ LIT_EXTINF_SP _ (no_match_concrete _ _ _ (by decide))]
  rw [searchAttrP_skip_of_no_match _ _ LIT_TVG_LOGO _ (no_match_concrete _ _ _ (by decide))]
  rw [show LIT_LAST_FOUND = "x-last-found=".toList ++ ['"'] from by decide]
  rw [searchAttrP_skip_of_no_match _ _ logo _
    (no_match_field _ _ _ (by decide) hlogo_q hlogo_ns2
      (by rw [show LIT_QSP = '"' :: [' '] from by decide]; rfl))]
  rw [searchAttrP_skip_of_no_match _ _ LIT_QSP _ (no_match_concrete _ _ _ (by decide))]
  rw [searchAttrP_skip_of_no_match _ _ LIT_TVG_ID _ (no_match_concrete _ _ _ (by decide))]
  rw [searchAttrP_skip_of_no_match _ _ tvgid _
    (no_match_field _ _ _ (by decide) htvg_q htvg_ns
      (by rw [show LIT_GROUP = '"' :: " group-title=\"".toList from by decide]; rfl))]
  rw [searchAttrP_skip_of_no_match _ _ LIT_GROUP _ (no_match_concrete _ _ _ (by decide))]
  rw [searchAttrP_skip_of_no_match _ _ cat _
    (no_match_field _ _ _ (by decide) hcat_q hcat_ns
      (by rw [show LIT_QSP = '"' :: [' '] from by decide]; rfl))]
  rw [searchAttrP_skip_of_no_match _ _ LIT_QSP _ (no_match_concrete _ _ _ (by decide))]
  rw [show "x-last-found=".toList ++ ['"'] = 'x' :: "-last-found=\"".toList from by decide]
  apply searchAttrP_hit
  · rw [show LIT_COMMA_SP = '"' :: "\x2c ".toList from by decide]
    rw [takeWhile_append_all _ _ _ (fun c hc => hnum_d c hc)]
    simp [List.takeWhile_cons]
  · exact hnum_ne
  · rw [List.drop_left]
    rw [show LIT_COMMA_SP = '"' :: "\x2c ".toList from by decide]
    rfl

theorem nmem_append (a : Char) (x y : Str) (hx : a ∉ x) (hy : a ∉ y) : a ∉ x ++ y := by
  rw [List.mem_append]
  rintro (h | h)
  · exact hx h
  · exact hy h

theorem parts_eq_pre_name (logo tvgid cat num name : Str) :
    top_line_parts logo tvgid cat num name = top_line_pre_name logo tvgid cat num ++ name := by
  rw [top_line_parts, top_line_pre_name]
  simp [List.append_assoc]

theorem parts_eq_pre_comma (logo tvgid cat num name : Str) :
    top_line_parts logo tvgid cat num name =
      top_line_pre_comma logo tvgid cat num ++ ',' :: (' ' :: name) := by
  rw [top_line_parts, top_line_pre_comma,
    show LIT_COMMA_SP = ['"'] ++ ([','] ++ [' ']) from by decide]
  simp [List.append_assoc]

theorem comma_not_in_pre (logo tvgid cat num : Str)
    (hlogo_c : ',' ∉ logo) (htvg_c : ',' ∉ tvgid) (hcat_c : ',' ∉ cat)
    (hnum_d : ∀ c ∈ num, c.isDigit = true) :
    ',' ∉ top_line_pre_comma logo tvgid cat num := by
  have hnum_c : ',' ∉ num := fun h => (isDigit_char_facts _ (hnum_d _ h)).2.1 rfl
  rw [top_line_pre_comma]
  refine nmem_append _ _ _ (by decide) (nmem_append _ _ _ (by decide)
    (nmem_append _ _ _ hlogo_c (nmem_append _ _ _ (by decide)
    (nmem_append _ _ _ (by decide) (nmem_append _ _ _ htvg_c
    (nmem_append _ _ _ (by decide) (nmem_append _ _ _ hcat_c
    (nmem_append _ _ _ (by decide) (nmem_append _ _ _ (by decide)
    (nmem_append _ _ _ hnum_c (by decide)))))))))))

theorem lastFieldAfterComma_split (U V : Str) (hV : ',' ∉ V) :
    lastFieldAfterComma (U ++ ',' :: V) = V := by
  rw [lastFieldAfterComma, List.reverse_append, List.reverse_cons]
  rw [List.append_assoc]
  rw [takeWhile_append_all _ _ _
    (fun c hc => by simp [bne_iff_ne]; exact fun he => hV (he ▸ (List.mem_reverse.mp hc)))]
  simp [List.takeWhile_cons]

theorem name_parse_parts (logo tvgid cat num name : Str)
    (hname_c : ',' ∉ name) (hname_ne : name ≠ []) (hname_tr : pyStrip name = name) :
    pyStrip (lastFieldAfterComma (top_line_parts logo tvgid cat num name)) = name := by
  rw [parts_eq_pre_comma]
  have hV : ',' ∉ ' ' :: name := by
    intro h
    rcases List.mem_cons.mp h with h | h
    · exact absurd h (by decide)
    · exact hname_c h
  rw [lastFieldAfterComma_split _ _ hV]
  obtain ⟨hL, hR⟩ := pyStrip_parts name hname_tr
  rw [pyStrip, pyStripLeft]
  rw [List.dropWhile_cons, if_pos (by decide)]
  rw [← pyStripLeft, hL, hR]

theorem no_replace_parts (logo tvgid cat num name : Str)
    (hlogo_c : ',' ∉ logo) (htvg_c : ',' ∉ tvgid) (hcat_c : ',' ∉ cat)
    (hnum_d : ∀ c ∈ num, c.isDigit = true) (hname_c : ',' ∉ name) :
    containsSub "#EXTINF:-1,".toList
      (top_line_parts logo tvgid cat num name ++ ['\n']) = false := by
  have hshape : top_line_parts logo tvgid cat num name ++ ['\n'] =
      top_line_pre_comma logo tvgid cat num ++ ',' :: (' ' :: (name ++ ['\n'])) := by
    rw [parts_eq_pre_comma]
    simp
  rw [hshape]
  apply no_extinf_comma _ _
    (LIT_EXTINF_SP ++ (LIT_TVG_LOGO ++ (logo ++ (LIT_QSP ++ (LIT_TVG_ID ++ (tvgid ++
      (LIT_GROUP ++ (cat ++ (LIT_QSP ++ (LIT_LAST_FOUND ++ num))))))))))
  · rw [top_line_pre_comma]
    simp [List.append_assoc]
  · exact comma_not_in_pre logo tvgid cat num hlogo_c htvg_c hcat_c hnum_d
  · intro h
    rcases List.mem_cons.mp h with h | h
    · exact absurd h (by decide)
    · rcases List.mem_append.mp h with h | h
      · exact hname_c h
      · simp at h

theorem pyStripLeft_append_keep (x y : Str) (hx : pyStripLeft x = x) (hne : x ≠ []) :
    pyStripLeft (x ++ y) = x ++ y := by
  cases x with
  | nil => cases hne rfl
  | cons c r =>
    have hc : isPySpace c = false := dropWhile_cons_self _ _ _ hx
    rw [List.cons_append]
    exact pyStripLeft_cons _ _ hc

theorem last_of_stripRight (y : Str) (hy : pyStripRight y = y) (hne : y ≠ []) :
    ∃ b d, y = b ++ [d] ∧ isPySpace d = false := by
  obtain ⟨b, d, rfl⟩ := exists_concat_of_ne_nil y hne
  refine ⟨b, d, rfl, ?_⟩
  rw [pyStripRight, List.reverse_append] at hy
  simp only [List.reverse_cons, List.reverse_nil, List.nil_append, List.singleton_append] at hy
  have h2 := congrArg List.reverse hy
  rw [List.reverse_reverse, List.reverse_append] at h2
  simp only [List.reverse_cons, List.reverse_nil, List.nil_append, List.singleton_append] at h2
  exact dropWhile_cons_self _ _ _ h2

theorem pyStripRight_append_keep (x y : Str) (hy : pyStripRight y = y) (hne : y ≠ []) :
    pyStripRight (x ++ y) = x ++ y := by
  obtain ⟨b, d, hbd, hd⟩ := last_of_stripRight y hy hne
  rw [hbd, ← List.append_assoc]
  exact pyStripRight_concat _ _ hd

theorem strip_line_parts (logo tvgid cat num name : Str)
    (hname_ne : name ≠ []) (hname_tr : pyStrip name = name) :
    pyStrip (top_line_parts logo tvgid cat num name ++ ['\n']) =
      top_line_parts logo tvgid cat num name := by
  have h1 : pyStripLeft (top_line_parts logo tvgid cat num name ++ ['\n']) =
      top_line_parts logo tvgid cat num name ++ ['\n'] := by
    rw [top_line_parts, List.append_assoc]
    exact pyStripLeft_append_keep _ _ (by decide) (by decide)
  rw [pyStrip, h1]
  rw [pyStripRight_append_space _ _ (by decide)]
  rw [parts_eq_pre_name]
  exact pyStripRight_append_keep _ _ (pyStrip_parts name hname_tr).2 hname_ne

theorem nl_not_in_parts (logo tvgid cat num name : Str)
    (hlogo : '\n' ∉ logo) (htvg : '\n' ∉ tvgid) (hcat : '\n' ∉ cat)
    (hnum_d : ∀ c ∈ num, c.isDigit = true) (hname : '\n' ∉ name) :
    '\n' ∉ top_line_parts logo tvgid cat num name := by
  have hnum : '\n' ∉ num := fun h => (isDigit_char_facts _ (hnum_d _ h)).2.2.1 rfl
  rw [top_line_parts]
  refine nmem_append _ _ _ (by decide) (nmem_append _ _ _ (by decide)
    (nmem_append _ _ _ hlogo (nmem_append _ _ _ (by decide)
    (nmem_append _ _ _ (by decide) (nmem_append _ _ _ htvg
    (nmem_append _ _ _ (by decide) (nmem_append _ _ _ hcat
    (nmem_append _ _ _ (by decide) (nmem_append _ _ _ (by decide)
    (nmem_append _ _ _ hnum (nmem_append _ _ _ (by decide) hname)))))))))))

theorem channel_top_line_parts (c : Channel) :
    channel_top_line c =
      top_line_parts c.tvg_logo c.tvg_id c.category (intToStr c.last_not_found) c.name
        ++ ['\n'] := by
  rw [channel_top_line, top_line_parts]
  rw [show "#EXTINF:-1 tvg-logo=\"".toList = LIT_EXTINF_SP ++ LIT_TVG_LOGO from by decide,
    show "\" tvg-id=\"".toList = LIT_QSP ++ LIT_TVG_ID from by decide,
    show "\" group-title=\"".toList = LIT_GROUP from by decide,
    show "\" x-last-found=\"".toList = LIT_QSP ++ LIT_LAST_FOUND from by decide,
    show "\", ".toList = LIT_COMMA_SP from by decide]
  simp [List.append_assoc]

theorem load_from_lines_skip (line : Str) (rest : List Str)
    (h1 : strStartsWith "#EXTINF:".toList line = false) :
    load_from_lines (line :: rest) [] = load_from_lines rest [] := by
  rw [load_from_lines]
  have h1x : strStartsWith ['#', 'E', 'X', 'T', 'I', 'N', 'F', ':'] line = false := h1
  simp [h1x]

theorem load_from_lines_meta (line : Str) (rest : List Str) (lo : Str)
    (h1 : strStartsWith "#EXTINF:".toList line = true) :
    load_from_lines (line :: rest) lo =
      load_from_lines rest
        (pyStrip (pyReplace "#EXTINF:-1,".toList "#EXTINF:-1".toList line)) := by
  rw [load_from_lines]
  have h1x : strStartsWith ['#', 'E', 'X', 'T', 'I', 'N', 'F', ':'] line = true := h1
  simp [h1x]

theorem load_from_lines_url (line : Str) (rest : List Str) (lo : Str)
    (h1 : strStartsWith "#EXTINF:".toList line = false) (h2 : lo ≠ []) :
    load_from_lines (line :: rest) lo = load_entry lo line :: load_from_lines rest [] := by
  rw [load_from_lines]
  have h1x : strStartsWith ['#', 'E', 'X', 'T', 'I', 'N', 'F', ':'] line = false := h1
  simp [h1x, h2]

theorem extractIdAux_cons_fail (p : Str) (ps : List Str) (url : Str)
    (h : strStartsWith p url = false) : extractIdAux (p :: ps) url = extractIdAux ps url := by
  rw [extractIdAux, if_neg (by simp [h])]

theorem extractIdAux_cons_hit (p : Str) (ps : List Str) (x : Str) :
    extractIdAux (p :: ps) (p ++ x) = pyStrip x := by
  rw [extractIdAux, if_pos (by simp [strStartsWith_self_append]), List.drop_left]

theorem pyStrip_append_nl (id : Str) (hne : id ≠ []) (htr : pyStrip id = id) :
    pyStrip (id ++ ['\n']) = id := by
  obtain ⟨hL, hR⟩ := pyStrip_parts id htr
  rw [pyStrip, pyStripLeft_append_keep _ _ hL hne, pyStripRight_append_space _ _ (by decide), hR]

theorem intToStr_nonneg (i : Int) (h : 0 ≤ i) : intToStr i = natDigits i.toNat := by
  rw [intToStr, if_neg (by omega)]

theorem load_roundtrip_core (c : Channel) (spre id : Str)
    (hname_ne : c.name ≠ []) (hname_tr : pyStrip c.name = c.name)
    (hname_q : '"' ∉ c.name) (hname_c : ',' ∉ c.name) (hname_n : '\n' ∉ c.name)
    (hlogo_ne : c.tvg_logo ≠ []) (hlogo_q : '"' ∉ c.tvg_logo) (hlogo_c : ',' ∉ c.tvg_logo)
    (hlogo_n : '\n' ∉ c.tvg_logo)
    (hlogo_ns1 : strEndsWith "tvg-id=".toList c.tvg_logo = false)
    (hlogo_ns2 : strEndsWith "x-last-found=".toList c.tvg_logo = false)
    (htvg_ne : c.tvg_id ≠ []) (htvg_q : '"' ∉ c.tvg_id) (htvg_c : ',' ∉ c.tvg_id)
    (htvg_n : '\n' ∉ c.tvg_id)
    (htvg_ns : strEndsWith "x-last-found=".toList c.tvg_id = false)
    (hcat_q : '"' ∉ c.category) (hcat_c : ',' ∉ c.category) (hcat_n : '\n' ∉ c.category)
    (hcat_ns : strEndsWith "x-last-found=".toList c.category = false)
    (hlnf : 0 ≤ c.last_not_found)
    (hid_ne : id ≠ []) (hid_tr : pyStrip id = id) (hid_n : '\n' ∉ id) (hspre_n : '\n' ∉ spre)
    (hurl_no : strStartsWith "#EXTINF:".toList ((spre ++ id) ++ ['\n']) = false)
    (hex_ih : extract_infohash_from_url ((spre ++ id) ++ ['\n']) = c.infohash)
    (hex_cid : extract_content_id_from_url ((spre ++ id) ++ ['\n']) = c.content_id) :
    load_from_content ("#EXTM3U\n".toList ++ (channel_top_line c ++ ((spre ++ id) ++ ['\n'])))
      = [{ c with category := [] }] := by
  have hnum_eq : intToStr c.last_not_found = natDigits c.last_not_found.toNat :=
    intToStr_nonneg _ hlnf
  have hnum_d : ∀ ch ∈ intToStr c.last_not_found, ch.isDigit = true := by
    rw [hnum_eq]
    exact natDigits_digits _
  have hnum_ne : intToStr c.last_not_found ≠ [] := by
    rw [hnum_eq]
    exact natDigits_ne_nil _
  have hLn : '\n' ∉ top_line_parts c.tvg_logo c.tvg_id c.category (intToStr c.last_not_found) c.name :=
    nl_not_in_parts _ _ _ _ _ hlogo_n htvg_n hcat_n hnum_d hname_n
  have hcontent : "#EXTM3U\n".toList ++ (channel_top_line c ++ ((spre ++ id) ++ ['\n']))
      = "#EXTM3U".toList ++ '\n' ::
          (top_line_parts c.tvg_logo c.tvg_id c.category (intToStr c.last_not_found) c.name
            ++ '\n' :: ((spre ++ id) ++ '\n' :: [])) := by
    rw [channel_top_line_parts, show "#EXTM3U\n".toList = "#EXTM3U".toList ++ ['\n'] from by decide]
    simp [List.append_assoc]
  rw [load_from_content, hcontent]
  rw [pySplitLines_append _ _ (by decide)]
  rw [pySplitLines_append _ _ hLn]
  rw [pySplitLines_append _ _ (nmem_append _ _ _ hspre_n hid_n)]
  rw [show pySplitLines [] = ([] : List Str) from rfl]
  rw [load_from_lines_skip _ _ (by decide)]
  have hmeta : strStartsWith "#EXTINF:".toList
      (top_line_parts c.tvg_logo c.tvg_id c.category (intToStr c.last_not_found) c.name
        ++ ['\n']) = true := by
    rw [top_line_parts, List.append_assoc]
    rw [strStartsWith_append_left _ _ _ (by decide)]
    decide
  rw [load_from_lines_meta _ _ _ hmeta]
  rw [pyReplace_nop _ _ _ (by decide)
    (no_replace_parts _ _ _ _ _ hlogo_c htvg_c hcat_c hnum_d hname_c)]
  rw [strip_line_parts _ _ _ _ _ hname_ne hname_tr]
  have hLne : top_line_parts c.tvg_logo c.tvg_id c.category (intToStr c.last_not_found) c.name
      ≠ [] := by
    rw [top_line_parts, show LIT_EXTINF_SP = '#' :: "EXTINF:-1 ".toList from by decide]
    simp
  rw [load_from_lines_url _ _ _ hurl_no hLne]
  rw [show load_from_lines [] [] = [] from rfl]
  have hname' := name_parse_parts c.tvg_logo c.tvg_id c.category (intToStr c.last_not_found)
    c.name hname_c hname_ne hname_tr
  have hlogo' := search_logo_parts c.tvg_logo c.tvg_id c.category (intToStr c.last_not_found)
    c.name hlogo_ne hlogo_q
  have htvg' := search_tvgid_parts c.tvg_logo c.tvg_id c.category (intToStr c.last_not_found)
    c.name htvg_ne htvg_q hlogo_q hlogo_ns1
  have hlast' := search_lastfound_parts c.tvg_logo c.tvg_id c.category (intToStr c.last_not_found)
    c.name hlogo_q hlogo_ns2 htvg_q htvg_ns hcat_q hcat_ns hnum_ne hnum_d
  have hentry : load_entry
      (top_line_parts c.tvg_logo c.tvg_id c.category (intToStr c.last_not_found) c.name)
      ((spre ++ id) ++ ['\n']) = { c with category := [] } := by
    rw [load_entry, search_tvg_logo, search_tvg_id, search_last_found]
    rw [hname', hlogo', htvg', hlast', hex_ih, hex_cid]
    simp only [Option.getD_some]
    rw [hnum_eq, parseNat_natDigits, Int.toNat_of_nonneg hlnf]
  rw [hentry]

theorem extract_fail_all (prefixes : List Str) (url : Str)
    (h : ∀ p ∈ prefixes, strStartsWith p url = false) : extractIdAux prefixes url = [] := by
  induction prefixes with
  | nil => rfl
  | cons p ps ih =>
    rw [extractIdAux_cons_fail _ _ _ (h p (List.mem_cons_self _ _))]
    exact ih (fun q hq => h q (List.mem_cons_of_mem _ hq))

/-- Claim C2 amended: for every URI scheme of the program and every channel
that is well-formed for that scheme (names and attribute values free of the
serialization's delimiter characters, both attribute values present, the
scheme's identifier present and trimmed and the other identifier absent,
non-negative timestamp), writing the channel to that scheme's playlist file
and reloading the file through the history-store parser yields exactly one
record, equal to the original in name, logo URL, tvg-id, infohash,
content_id and last_not_found (category is not round-tripped: the loader
does not parse group-title). -/
theorem claim_C2_amended_playlist_roundtrip (sname spre : Str)
    (hmem : (sname, spre) ∈ M3U_URI_SCHEMES) (c : Channel)
    (hwf : WellFormedChannel sname c) :
    load_from_content (create_playlist_file sname spre [c]) = [{ c with category := [] }] := by
  obtain ⟨⟨hname_ne, hname_tr, hname_q, hname_c, hname_n⟩,
    ⟨hlogo_ne, hlogo_q, hlogo_c, hlogo_n, hlogo_ns1, hlogo_ns2⟩,
    ⟨htvg_ne, htvg_q, htvg_c, htvg_n, htvg_ns⟩,
    ⟨hcat_q, hcat_c, hcat_n, hcat_ns⟩, hlnf, hid⟩ := hwf
  rw [M3U_URI_SCHEMES] at hmem
  simp only [List.mem_cons, List.mem_singleton, Prod.mk.injEq, List.not_mem_nil, or_false] at hmem
  rcases hmem with ⟨h1, h2⟩ | ⟨h1, h2⟩ | ⟨h1, h2⟩ | ⟨h1, h2⟩ <;> subst h1 <;> subst h2
  · -- local_infohash
    rw [if_pos rfl] at hid
    obtain ⟨hih_ne, hcid_eq, hih_tr, hih_n⟩ := hid
    have hfile : create_playlist_file "local_infohash".toList
        "http://127.0.0.1:6878/ace/manifest.m3u8?infohash=".toList [c] =
        "#EXTM3U\n".toList ++ (channel_top_line c ++
          (("http://127.0.0.1:6878/ace/manifest.m3u8?infohash=".toList ++ c.infohash) ++ ['\n'])) := by
      rw [create_playlist_file]
      simp only [List.map_cons, List.map_nil, List.flatten_cons, List.flatten_nil]
      rw [channel_entry, if_pos ⟨hih_ne, rfl⟩]
      simp [List.append_assoc]
    rw [hfile]
    apply load_roundtrip_core c _ c.infohash hname_ne hname_tr hname_q hname_c hname_n
      hlogo_ne hlogo_q hlogo_c hlogo_n hlogo_ns1 hlogo_ns2
      htvg_ne htvg_q htvg_c htvg_n htvg_ns hcat_q hcat_c hcat_n hcat_ns hlnf
      hih_ne hih_tr hih_n (by decide)
    · rw [List.append_assoc]
      exact strStartsWith_append_false _ _ _ (by decide) (by decide)
    · rw [List.append_assoc, extract_infohash_from_url, ACE_URL_PREFIXES_INFOHASH]
      rw [extractIdAux_cons_fail _ _ _ (strStartsWith_append_false _ _ _ (by decide) (by decide))]
      rw [extractIdAux_cons_hit]
      exact pyStrip_append_nl _ hih_ne hih_tr
    · rw [hcid_eq, List.append_assoc, extract_content_id_from_url]
      apply extract_fail_all
      intro p hp
      fin_cases hp <;> exact strStartsWith_append_false _ _ _ (by decide) (by decide)
  · -- local_content_id
    rw [if_neg (by decide)] at hid
    obtain ⟨hcid_ne, hih_eq, hcid_tr, hcid_n⟩ := hid
    have hfile : create_playlist_file "local_content_id".toList
        "http://127.0.0.1:6878/ace/manifest.m3u8?content_id=".toList [c] =
        "#EXTM3U\n".toList ++ (channel_top_line c ++
          (("http://127.0.0.1:6878/ace/manifest.m3u8?content_id=".toList ++ c.content_id) ++ ['\n'])) := by
      rw [create_playlist_file]
      simp only [List.map_cons, List.map_nil, List.flatten_cons, List.flatten_nil]
      rw [channel_entry, if_neg (by rw [hih_eq]; simp), if_pos ⟨hcid_ne, by decide⟩]
      simp [List.append_assoc]
    rw [hfile]
    apply load_roundtrip_core c _ c.content_id hname_ne hname_tr hname_q hname_c hname_n
      hlogo_ne hlogo_q hlogo_c hlogo_n hlogo_ns1 hlogo_ns2
      htvg_ne htvg_q htvg_c htvg_n htvg_ns hcat_q hcat_c hcat_n hcat_ns hlnf
      hcid_ne hcid_tr hcid_n (by decide)
    · rw [List.append_assoc]
      exact strStartsWith_append_false _ _ _ (by decide) (by decide)
    · rw [hih_eq, List.append_assoc, extract_infohash_from_url]
      apply extract_fail_all
      intro p hp
      fin_cases hp <;> exact strStartsWith_append_false _ _ _ (by decide) (by decide)
    · rw [List.append_assoc, extract_content_id_from_url, ACE_URL_PREFIXES_CONTENT_ID]
      rw [extractIdAux_cons_fail _ _ _ (strStartsWith_append_false _ _ _ (by decide) (by decide))]
      rw [extractIdAux_cons_fail _ _ _ (strStartsWith_append_false _ _ _ (by decide) (by decide))]
      rw [extractIdAux_cons_fail _ _ _ (strStartsWith_append_false _ _ _ (by decide) (by decide))]
      rw [extractIdAux_cons_fail _ _ _ (strStartsWith_append_false _ _ _ (by decide) (by decide))]
      rw [extractIdAux_cons_hit]
      exact pyStrip_append_nl _ hcid_ne hcid_tr
  · -- ace
    rw [if_neg (by decide)] at hid
    obtain ⟨hcid_ne, hih_eq, hcid_tr, hcid_n⟩ := hid
    have hfile : create_playlist_file "ace".toList "acestream://".toList [c] =
        "#EXTM3U\n".toList ++ (channel_top_line c ++
          (("acestream://".toList ++ c.content_id) ++ ['\n'])) := by
      rw [create_playlist_file]
      simp only [List.map_cons, List.map_nil, List.flatten_cons, List.flatten_nil]
      rw [channel_entry, if_neg (by rw [hih_eq]; simp), if_pos ⟨hcid_ne, by decide⟩]
      simp [List.append_assoc]
    rw [hfile]
    apply load_roundtrip_core c _ c.content_id hname_ne hname_tr hname_q hname_c hname_n
      hlogo_ne hlogo_q hlogo_c hlogo_n hlogo_ns1 hlogo_ns2
      htvg_ne htvg_q htvg_c htvg_n htvg_ns hcat_q hcat_c hcat_n hcat_ns hlnf
      hcid_ne hcid_tr hcid_n (by decide)
    · rw [List.append_assoc]
      exact strStartsWith_append_false _ _ _ (by decide) (by decide)
    · rw [hih_eq, List.append_assoc, extract_infohash_from_url]
      apply extract_fail_all
      intro p hp
      fin_cases hp <;> exact strStartsWith_append_false _ _ _ (by decide) (by decide)
    · rw [List.append_assoc, extract_content_id_from_url, ACE_URL_PREFIXES_CONTENT_ID]
      rw [extractIdAux_cons_hit]
      exact pyStrip_append_nl _ hcid_ne hcid_tr
  · -- horus
    rw [if_neg (by decide)] at hid
    obtain ⟨hcid_ne, hih_eq, hcid_tr, hcid_n⟩ := hid
    have hfile : create_playlist_file "horus".toList
        "plugin://script.module.horus?action=play&id=".toList [c] =
        "#EXTM3U\n".toList ++ (channel_top_line c ++
          (("plugin://script.module.horus?action=play&id=".toList ++ c.content_id) ++ ['\n'])) := by
      rw [create_playlist_file]
      simp only [List.map_cons, List.map_nil, List.flatten_cons, List.flatten_nil]
      rw [channel_entry, if_neg (by rw [hih_eq]; simp), if_pos ⟨hcid_ne, by decide⟩]
      simp [List.append_assoc]
    rw [hfile]
    apply load_roundtrip_core c _ c.content_id hname_ne hname_tr hname_q hname_c hname_n
      hlogo_ne hlogo_q hlogo_c hlogo_n hlogo_ns1 hlogo_ns2
      htvg_ne htvg_q htvg_c htvg_n htvg_ns hcat_q hcat_c hcat_n hcat_ns hlnf
      hcid_ne hcid_tr hcid_n (by decide)
    · rw [List.append_assoc]
      exact strStartsWith_append_false _ _ _ (by decide) (by decide)
    · rw [hih_eq, List.append_assoc, extract_infohash_from_url]
      apply extract_fail_all
      intro p hp
      fin_cases hp <;> exact strStartsWith_append_false _ _ _ (by decide) (by decide)
    · rw [List.append_assoc, extract_content_id_from_url, ACE_URL_PREFIXES_CONTENT_ID]
      rw [extractIdAux_cons_fail _ _ _ (strStartsWith_append_false _ _ _ (by decide) (by decide))]
      rw [extractIdAux_cons_fail _ _ _ (strStartsWith_append_false _ _ _ (by decide) (by decide))]
      rw [extractIdAux_cons_fail _ _ _ (strStartsWith_append_false _ _ _ (by decide) (by decide))]
      rw [extractIdAux_cons_fail _ _ _ (strStartsWith_append_false _ _ _ (by decide) (by decide))]
      rw [extractIdAux_cons_fail _ _ _ (strStartsWith_append_false _ _ _ (by decide) (by decide))]
      rw [extractIdAux_cons_hit]
      exact pyStrip_append_nl _ hcid_ne hcid_tr

/-- Claim C2 counterexample: a channel whose name contains a comma does not
round-trip. Writing name "A,B" (content_id "xyz", scheme "ace") and reloading
yields the name "B" — the parser takes the text after the LAST comma of the
metadata line — so the reloaded name differs from the written one. -/
theorem claim_C2_roundtrip_counterexample :
    load_from_content (create_playlist_file "ace".toList "acestream://".toList
        [{ name := "A,B".toList, tvg_logo := [], last_not_found := 5, content_id := "xyz".toList }])
      = [{ name := "B".toList, tvg_logo := [], last_not_found := 5, content_id := "xyz".toList }]
    ∧ ("B".toList : Str) ≠ "A,B".toList := by
  refine ⟨by decide, by decide⟩

/-- Witness for the amended claim C2 at a concrete well-formed channel and the
"ace" URI scheme. -/
theorem claim_C2_amended_playlist_roundtrip_witness :
    load_from_content (create_playlist_file "ace".toList "acestream://".toList
        [{ name := "News [UK]".toList, tvg_logo := "http://logo/x.png".toList, last_not_found := 7, tvg_id := "news.uk".toList, content_id := "abc123".toList }])
      = [{ name := "News [UK]".toList, tvg_logo := "http://logo/x.png".toList, last_not_found := 7, tvg_id := "news.uk".toList, content_id := "abc123".toList, category := [] }] :=
  claim_C2_amended_playlist_roundtrip "ace".toList "acestream://".toList (by decide)
    { name := "News [UK]".toList, tvg_logo := "http://logo/x.png".toList, last_not_found := 7, tvg_id := "news.uk".toList, content_id := "abc123".toList }
    (by decide)
